import Mathlib

/-!
# timecalc: a shallow embedding of `timecalc.c`

The program reads three command-line tokens (left operand, operator, right
operand), parses the operands as dates or durations, combines them field by
field and prints the result.

Conventions of the embedding:

* a C string is the `List Char` of its characters before the terminating NUL;
* a C `int` is an `Int`; every `int` store goes through `wrap_int`, the
  two's complement wrap to 32 bits (ISO C leaves signed overflow undefined;
  the wrap is what the usual build does);
* a pointer into a token is the `List Char` of what is left of the token;
* functions that write through `dst` return the new `dst` next to their
  return code;
* libc routines (`sscanf`, `strptime`, `gmtime`, `mktime`, `asctime`) are
  modelled from ISO C / POSIX and the GNU C library, each in a definition
  that says so.
-/

namespace timecalc

/-! ## Machine integers -/

/-- Smallest value of a C `int`. -/
def INT_MIN : Int := -2147483648

/-- Largest value of a C `int`. -/
def INT_MAX : Int := 2147483647

/-- Two's complement wrap of an integer to the 32 bits of a C `int`. -/
def wrap_int (x : Int) : Int := (x + 2147483648) % 4294967296 - 2147483648

/-- The integer is representable as a C `int`. -/
def in_int (x : Int) : Prop := INT_MIN ≤ x ∧ x ≤ INT_MAX

instance (x : Int) : Decidable (in_int x) := by
  unfold in_int; exact inferInstance

/-! ## Data model (lines 17-27) -/

/-- The fields of `struct tm` that the program reads or writes: the six
calendar fields and the UTC offset that `strptime` stores for `%z`.
`tm_wday`, `tm_yday`, `tm_isdst` and `tm_zone` are left out: the program never
reads them before `mktime` derives them again. -/
structure tm where
  tm_sec : Int
  tm_min : Int
  tm_hour : Int
  tm_mday : Int
  tm_mon : Int
  tm_year : Int
  tm_gmtoff : Int
  deriving DecidableEq, Repr

/-- The zeroed struct: `{0}`. -/
def tm_zero : tm := ⟨0, 0, 0, 0, 0, 0, 0⟩

/-- The tag of `struct operand` (line 18). -/
inductive operand_tag
  | OP_DATE
  | OP_DURATION
  deriving DecidableEq, Repr

/-- The operand of line 17: `struct operand`. -/
structure operand where
  tag : operand_tag
  val : tm
  deriving DecidableEq, Repr

/-- The zeroed operand `{0}` of lines 156-157: tag 0 is `OP_DATE`. -/
def operand_zero : operand := ⟨operand_tag.OP_DATE, tm_zero⟩

/-- The operator of line 22: `enum operator`. -/
inductive operator
  | OP_ADD
  | OP_SUB
  deriving DecidableEq, Repr

/-! ## The arithmetic switch of `main` (lines 164-236) -/

/-- The six `+=` statements of lines 187-192 and 216-221. -/
def add_fields (l r : tm) : tm :=
  { l with
    tm_year := wrap_int (l.tm_year + r.tm_year)
    tm_mon := wrap_int (l.tm_mon + r.tm_mon)
    tm_mday := wrap_int (l.tm_mday + r.tm_mday)
    tm_hour := wrap_int (l.tm_hour + r.tm_hour)
    tm_min := wrap_int (l.tm_min + r.tm_min)
    tm_sec := wrap_int (l.tm_sec + r.tm_sec) }

/-- The six `-=` statements of lines 173-178, 196-201 and 225-230. -/
def sub_fields (l r : tm) : tm :=
  { l with
    tm_year := wrap_int (l.tm_year - r.tm_year)
    tm_mon := wrap_int (l.tm_mon - r.tm_mon)
    tm_mday := wrap_int (l.tm_mday - r.tm_mday)
    tm_hour := wrap_int (l.tm_hour - r.tm_hour)
    tm_min := wrap_int (l.tm_min - r.tm_min)
    tm_sec := wrap_int (l.tm_sec - r.tm_sec) }

/-- The nested switch of lines 164-236. `Except.error msg` is the
`DIE_USAGE(msg)` that leaves `main`; `Except.ok` is the new value of `lhs`
with which `main` goes on to line 238. -/
def combine (lhs : operand) (op : operator) (rhs : operand) : Except String operand :=
  match lhs.tag with
  | operand_tag.OP_DATE =>
    match rhs.tag with
    | operand_tag.OP_DATE =>
      match op with
      | operator.OP_ADD => Except.error "can't add dates"
      | operator.OP_SUB =>
        Except.ok { tag := operand_tag.OP_DURATION, val := sub_fields lhs.val rhs.val }
    | operand_tag.OP_DURATION =>
      match op with
      | operator.OP_ADD => Except.ok { lhs with val := add_fields lhs.val rhs.val }
      | operator.OP_SUB => Except.ok { lhs with val := sub_fields lhs.val rhs.val }
  | operand_tag.OP_DURATION =>
    match rhs.tag with
    | operand_tag.OP_DATE => Except.error "can't do arithmetic between duration and date"
    | operand_tag.OP_DURATION =>
      match op with
      | operator.OP_ADD => Except.ok { lhs with val := add_fields lhs.val rhs.val }
      | operator.OP_SUB => Except.ok { lhs with val := sub_fields lhs.val rhs.val }

/-! ## libc character classes and `sscanf` -/

/-- The libc `isspace` in the C locale: space, `\t`, `\n`, `\v`, `\f`, `\r`. -/
def isspace (c : Char) : Bool :=
  decide (c.toNat = 32 ∨ (9 ≤ c.toNat ∧ c.toNat ≤ 13))

/-- The libc `isdigit`: `'0'` to `'9'`. -/
def isdigit (c : Char) : Bool :=
  decide (48 ≤ c.toNat ∧ c.toNat ≤ 57)

/-- Base ten value of a run of digit characters, most significant first. -/
def digits_value (ds : List Char) : Nat :=
  ds.foldl (fun acc c => 10 * acc + (c.toNat - 48)) 0

/-- Clamp to the range of a 64-bit `long`, as `strtol` does on overflow. -/
def clamp_long (x : Int) : Int :=
  max (-9223372036854775808) (min x 9223372036854775807)

/-- What `sscanf(src, "%d%n", &val, &skip)` does. -/
inductive scan_result
  /-- Input ended before the conversion: returns `EOF`, stores nothing. -/
  | eof
  /-- Matching failure: returns 0, stores nothing. -/
  | no_match
  /-- One conversion: returns 1, stores `val` and `skip`. -/
  | matched (val : Int) (skip : Nat)
  deriving DecidableEq, Repr

/-- The return value of the `sscanf` call. -/
def scan_result.ret : scan_result → Int
  | scan_result.eof => -1
  | scan_result.no_match => 0
  | scan_result.matched _ _ => 1

/-- Modelled from ISO C (7.21.6.2) and the GNU C library:
`sscanf(src, "%d%n", &val, &skip)`. White space is skipped; the end of the
string there is an input failure (`EOF`); then an optional sign and the
longest run of digits are read, no digit being a matching failure (0). The
digits are converted as by `strtol` and stored into the `int`; `%n` stores the
number of characters read so far. -/
def sscanf_d (src : List Char) : scan_result :=
  let ws := src.takeWhile isspace
  match src.dropWhile isspace with
  | [] => scan_result.eof
  | c :: rest =>
    let sign : Bool := decide (c = '-' ∨ c = '+')
    let body := if sign then rest else c :: rest
    let ds := body.takeWhile isdigit
    if ds.isEmpty then scan_result.no_match
    else
      let mag : Int := digits_value ds
      scan_result.matched
        (wrap_int (clamp_long (if c = '-' then -mag else mag)))
        (ws.length + (if sign then 1 else 0) + ds.length)

/-! ## `parse_duration` (lines 62-86) -/

/-- The macro `SV_EAT(src, kw)` of lines 64-65: when `kw` starts `src`
(`strncmp` over the length of `kw` gives 0), `src` is advanced past it, given
here as `some` of the new `src`; otherwise `src` is unchanged and the result is
`none`. -/
def SV_EAT (src kw : List Char) : Option (List Char) :=
  match kw, src with
  | [], src => some src
  | _ :: _, [] => none
  | k :: kw, c :: src => if c = k then SV_EAT src kw else none
termination_by structural kw

/-- Outcome of a parsing function: its return code with the new `*dst`, or
undefined behaviour of the C program. -/
inductive parse_result
  | returned (code : Int) (dst : operand)
  | undefined_behaviour
  deriving DecidableEq, Repr

/-- The `for (int val, skip;;)` loop of lines 67-82. `last` holds the values
of `val` and `skip`: `none` while they are uninitialised, and afterwards what
the latest successful `sscanf` stored (a call that returns 0 stores nothing,
so the variables keep their old values). Reading them uninitialised, and
moving `src` beyond the terminating NUL, are undefined behaviour. The first
argument bounds the number of iterations; `none` means the bound was reached.
The `ASSERT` of line 69 cannot fire: the program never reads `stdin`. -/
def parse_duration_loop : Nat → List Char → Option (Int × Nat) → operand → Option parse_result
  | 0, _, _, _ => none
  | fuel + 1, src, last, dst =>
    let scan := sscanf_d src
    if scan.ret < 0 then
      some (parse_result.returned 0 { dst with tag := operand_tag.OP_DURATION })
    else
      let cur := match scan with
        | scan_result.matched val skip => some (val, skip)
        | _ => last
      match cur with
      | none => some parse_result.undefined_behaviour
      | some (val, skip) =>
        if src.length < skip then some parse_result.undefined_behaviour
        else
          let src := src.drop skip
          let v := dst.val
          match SV_EAT src "years".toList with
          | some src => parse_duration_loop fuel src cur
              { dst with val := { v with tm_year := wrap_int (v.tm_year + val) } }
          | none =>
          match SV_EAT src "months".toList with
          | some src => parse_duration_loop fuel src cur
              { dst with val := { v with tm_mon := wrap_int (v.tm_mon + val) } }
          | none =>
          match SV_EAT src "weeks".toList with
          | some src => parse_duration_loop fuel src cur
              { dst with val := { v with tm_mday := wrap_int (v.tm_mday + wrap_int (val * 7)) } }
          | none =>
          match SV_EAT src "days".toList with
          | some src => parse_duration_loop fuel src cur
              { dst with val := { v with tm_mday := wrap_int (v.tm_mday + val) } }
          | none =>
          match SV_EAT src "hours".toList with
          | some src => parse_duration_loop fuel src cur
              { dst with val := { v with tm_hour := wrap_int (v.tm_hour + val) } }
          | none =>
          match SV_EAT src "mins".toList with
          | some src => parse_duration_loop fuel src cur
              { dst with val := { v with tm_min := wrap_int (v.tm_min + val) } }
          | none =>
          match SV_EAT src "secs".toList with
          | some src => parse_duration_loop fuel src cur
              { dst with val := { v with tm_sec := wrap_int (v.tm_sec + val) } }
          | none => some (parse_result.returned (-1) dst)

/-- The function `parse_duration` of lines 62-86. Every iteration that goes
round again moves `src` forward by at least one character, so
`src.length + 1` iterations are enough (`parse_duration_loop_fuel`) and the
last branch is never taken. -/
def parse_duration (src : List Char) (dst : operand) : parse_result :=
  match parse_duration_loop (src.length + 1) src none dst with
  | some r => r
  | none => parse_result.undefined_behaviour

/-! ## libc `strptime` -/

/-- The digit loop of `get_number` in the GNU `strptime`:
`do { val = val * 10 + digit; } while (--n > 0 && val * 10 <= to && isdigit (*rp))`.
The first argument is the number of digits still allowed. -/
def get_number_digits (hi : Nat) : Nat → Nat → List Char → Nat × List Char
  | 0, val, rp => (val, rp)
  | _ + 1, val, [] => (val, [])
  | n + 1, val, c :: rp =>
    if isdigit c && decide (val * 10 ≤ hi) then
      get_number_digits hi n (val * 10 + (c.toNat - 48)) rp
    else (val, c :: rp)

/-- Modelled from the GNU C library (`time/strptime_l.c`): the macro
`get_number (from, to, n)`. White space is skipped, a digit is required, at
most `n` digits are read, and the value must lie in `from .. to`; `none`
stands for `return NULL`. -/
def get_number (lo hi n : Nat) (rp : List Char) : Option (Nat × List Char) :=
  match rp.dropWhile isspace with
  | [] => none
  | c :: rest =>
    if isdigit c then
      let r := get_number_digits hi n 0 (c :: rest)
      if lo ≤ r.1 ∧ r.1 ≤ hi then some r else none
    else none

/-- The digit loop of the `%z` conversion: up to four digits, with a colon
allowed after the second digit when a digit follows it. The state is the
number `n` of digits read and their value. -/
def z_digits : Nat → Nat → Nat → List Char → Nat × Nat × List Char
  | 0, n, val, rp => (n, val, rp)
  | _ + 1, n, val, [] => (n, val, [])
  | fuel + 1, n, val, c :: rp =>
    if isdigit c then
      let val := val * 10 + (c.toNat - 48)
      let n := n + 1
      match rp with
      | ':' :: d :: rp2 =>
        if n = 2 ∧ isdigit d = true then z_digits fuel n val (d :: rp2)
        else z_digits fuel n val rp
      | _ => z_digits fuel n val rp
    else (n, val, c :: rp)

/-- Modelled from the GNU C library: the `%z` conversion of `strptime`. It
accepts `Z`, or a sign followed by two digits, four digits or `hh:mm`, and
stores the offset in seconds into `tm_gmtoff`; no other field is touched. -/
def strptime_z (rp : List Char) (t : tm) : Option (List Char × tm) :=
  match rp.dropWhile isspace with
  | [] => none
  | c :: rest =>
    if c = 'Z' then some (rest, { t with tm_gmtoff := 0 })
    else if c = '+' ∨ c = '-' then
      let r := z_digits 4 0 0 rest
      let n := r.1
      let val := r.2.1
      let val := if n = 2 then val * 100 else val
      if n ≠ 2 ∧ n ≠ 4 then none
      else if n = 4 ∧ 60 ≤ val % 100 then none
      else
        let off : Int := ((val / 100) * 3600 + (val % 100) * 60 : Nat)
        some (r.2.2, { t with tm_gmtoff := if c = '-' then -off else off })
    else none

/-- The items of the format strings the program passes to `strptime`: the
conversions `%Y %m %d %H %M %S %z` and ordinary characters. -/
inductive fmt_item
  | Y | m | d | H | M | S | z
  | lit (c : Char)
  deriving DecidableEq, Repr

/-- The format `"%Y-%m-%d"` of line 46. -/
def fmt_date : List fmt_item :=
  [fmt_item.Y, fmt_item.lit '-', fmt_item.m, fmt_item.lit '-', fmt_item.d]

/-- The format `"%H:%M:%S"` of line 52. -/
def fmt_time : List fmt_item :=
  [fmt_item.H, fmt_item.lit ':', fmt_item.M, fmt_item.lit ':', fmt_item.S]

/-- The format `"%z"` of line 55. -/
def fmt_zone : List fmt_item := [fmt_item.z]

/-- Modelled from POSIX and the GNU C library: `strptime (rp, fmt, &t)` for
the formats above. The result is the returned pointer (`none` for `NULL`) and
the struct as `strptime` leaves it: each conversion stores its field as soon
as it has matched, so a call that fails part of the way keeps the fields of
the conversions before the failure. -/
def strptime : List Char → List fmt_item → tm → Option (List Char) × tm
  | rp, [], t => (some rp, t)
  | rp, it :: fmt, t =>
    match it with
    | fmt_item.lit ch =>
      match rp with
      | c :: rp2 => if c = ch then strptime rp2 fmt t else (none, t)
      | [] => (none, t)
    | fmt_item.Y =>
      match get_number 0 9999 4 rp with
      | some (v, rp2) => strptime rp2 fmt { t with tm_year := (v : Int) - 1900 }
      | none => (none, t)
    | fmt_item.m =>
      match get_number 1 12 2 rp with
      | some (v, rp2) => strptime rp2 fmt { t with tm_mon := (v : Int) - 1 }
      | none => (none, t)
    | fmt_item.d =>
      match get_number 1 31 2 rp with
      | some (v, rp2) => strptime rp2 fmt { t with tm_mday := (v : Int) }
      | none => (none, t)
    | fmt_item.H =>
      match get_number 0 23 2 rp with
      | some (v, rp2) => strptime rp2 fmt { t with tm_hour := (v : Int) }
      | none => (none, t)
    | fmt_item.M =>
      match get_number 0 59 2 rp with
      | some (v, rp2) => strptime rp2 fmt { t with tm_min := (v : Int) }
      | none => (none, t)
    | fmt_item.S =>
      match get_number 0 61 2 rp with
      | some (v, rp2) => strptime rp2 fmt { t with tm_sec := (v : Int) }
      | none => (none, t)
    | fmt_item.z =>
      match strptime_z rp t with
      | some (rp2, t2) => strptime rp2 fmt t2
      | none => (none, t)

/-! ## `parse_date`, `parse_operand`, `parse_operator` (lines 36-60, 88-100) -/

/-- The function `parse_date` of lines 36-60; `today` is the global of line
27. The result is the return code and the new `*dst`. -/
def parse_date (today : tm) (src : List Char) (dst : operand) : Int × operand :=
  if src = "TODAY".toList then
    (0, { tag := operand_tag.OP_DATE, val := today })
  else
    let t := tm_zero
    let r1 := strptime src fmt_date t
    let after_date := r1.1
    let t := r1.2
    let t := if after_date = none then
        { t with tm_year := today.tm_year, tm_mon := today.tm_mon, tm_mday := today.tm_mday }
      else t
    let r2 := strptime (match after_date with | some p => p | none => src) fmt_time t
    let after_time := r2.1
    let t := r2.2
    if after_date = none ∧ after_time = none then (-1, dst)
    else
      let r3 := strptime (match after_time with | some p => p | none => src) fmt_zone t
      let t := r3.2
      (0, { tag := operand_tag.OP_DATE, val := t })

/-- The function `parse_operand` of lines 88-93. -/
def parse_operand (today : tm) (src : List Char) (dst : operand) : parse_result :=
  let r := parse_date today src dst
  if r.1 = 0 then parse_result.returned 0 r.2
  else
    match parse_duration src r.2 with
    | parse_result.returned code dst2 =>
      if code = 0 then parse_result.returned 0 dst2 else parse_result.returned (-1) dst2
    | parse_result.undefined_behaviour => parse_result.undefined_behaviour

/-- The function `parse_operator` of lines 95-100. The destination is `none`
while the `enum operator op` of line 158 is uninitialised. -/
def parse_operator (src : List Char) (dst : Option operator) : Int × Option operator :=
  if src = "+".toList then (0, some operator.OP_ADD)
  else if src = "-".toList then (0, some operator.OP_SUB)
  else (-1, dst)

/-! ## The calendar of libc: `gmtime`, `mktime`, `asctime` -/

/-- Gregorian leap year. -/
def is_leap (y : Int) : Bool :=
  decide (y % 4 = 0 ∧ (y % 100 ≠ 0 ∨ y % 400 = 0))

/-- Length of a month (from 1 to 12) of a Gregorian year. -/
def days_in_month (y m : Int) : Int :=
  if m = 2 then (if is_leap y then 29 else 28)
  else if m = 4 ∨ m = 6 ∨ m = 9 ∨ m = 11 then 30
  else 31

/-- Days before the year `yoe` (0 to 399) of an era of 400 years that starts
on a first of March. -/
def era_year_start (yoe : Int) : Int := 365 * yoe + yoe / 4 - yoe / 100

/-- Last day of the year `yoe` (0 to 399) of an era; an era has 146097 days. -/
def era_year_last (yoe : Int) : Int :=
  if yoe = 399 then 146096 else era_year_start (yoe + 1) - 1

/-- The year of an era (0 to 399) in which the day `doe` (0 to 146096) of the
era falls. -/
def era_year (doe : Int) : Int :=
  (doe - doe / 1460 + doe / 36524 - doe / 146096) / 365

/-- Days since 1970-01-01 of the civil date `y`-`m`-`d` (`m` from 1 to 12) in
the proleptic Gregorian calendar. Years are counted from March, in eras of
400 years. -/
def days_from_civil (y m d : Int) : Int :=
  let y := if m ≤ 2 then y - 1 else y
  let era := y / 400
  let yoe := y - era * 400
  let mp := if 2 < m then m - 3 else m + 9
  let doy := (153 * mp + 2) / 5 + d - 1
  let doe := era_year_start yoe + doy
  era * 146097 + doe - 719468

/-- The civil date (year, month from 1, day from 1) of a number of days since
1970-01-01: the inverse of `days_from_civil` (`civil_from_days_spec`). -/
def civil_from_days (z : Int) : Int × Int × Int :=
  let z := z + 719468
  let era := z / 146097
  let doe := z - era * 146097
  let yoe := era_year doe
  let y := yoe + era * 400
  let doy := doe - era_year_start yoe
  let mp := (5 * doy + 2) / 153
  let d := doy - (153 * mp + 2) / 5 + 1
  let m := if mp < 10 then mp + 3 else mp - 9
  (if m ≤ 2 then y + 1 else y, m, d)

/-- Modelled from POSIX: `gmtime (&t)`, the broken-down UTC time of `t`
seconds since the Epoch. `none` is the `NULL` that `gmtime` returns when the
year does not fit `tm_year`. -/
def gmtime (t : Int) : Option tm :=
  let days := t / 86400
  let rem := t % 86400
  let c := civil_from_days days
  if in_int (c.1 - 1900) then
    some { tm_sec := rem % 60, tm_min := rem / 60 % 60, tm_hour := rem / 3600,
           tm_mday := c.2.2, tm_mon := c.2.1 - 1, tm_year := c.1 - 1900, tm_gmtoff := 0 }
  else none

/-- How a run of `main` ends: it returns a status after writing to `stderr`,
or an `ASSERT` fails and traps after writing its message, or the C program has
undefined behaviour. -/
inductive exit_result
  | returned (status : Int) (stderr : String)
  | trapped (stderr : String)
  | undefined_behaviour
  deriving DecidableEq, Repr

/-- The message that the macro `ASSERT` of lines 8-15 writes before the trap. -/
def ASSERT_message (msg : String) : String :=
  "assertion error: " ++ msg ++ "\n"

/-- The function `init_today` of lines 29-34, `clock` being what `time (0)`
returns. The result is the new value of the global `today`; dereferencing the
`NULL` of a failed `gmtime` is undefined behaviour. -/
def init_today (clock : Int) : Except exit_result tm :=
  if clock < 0 then Except.error (exit_result.trapped (ASSERT_message "time value overflow"))
  else
    match gmtime clock with
    | some g => Except.ok g
    | none => Except.error exit_result.undefined_behaviour

/-- Modelled from POSIX: `mktime (&t)` in a time zone that stays `utc_offset`
seconds east of UTC. The fields may be out of range: months carry into the
year, and days, hours, minutes and seconds are added up. The result is the
returned `time_t` with the normalised struct, or `-1` with the struct untouched
when the time is not representable. -/
def mktime (utc_offset : Int) (t : tm) : Int × tm :=
  let year := 1900 + t.tm_year + t.tm_mon / 12
  let mon := t.tm_mon % 12
  let days := days_from_civil year (mon + 1) 1 + (t.tm_mday - 1)
  let secs := days * 86400 + t.tm_hour * 3600 + t.tm_min * 60 + t.tm_sec - utc_offset
  if secs < -9223372036854775808 ∨ 9223372036854775807 < secs then (-1, t)
  else
    match gmtime (secs + utc_offset) with
    | some g => (secs, { g with tm_gmtoff := utc_offset })
    | none => (-1, t)

/-- The abbreviated day names of `asctime`. -/
def wday_name (w : Int) : String :=
  ["Sun", "Mon", "Tue", "Wed", "Thu", "Fri", "Sat"].getD w.toNat "???"

/-- The abbreviated month names of `asctime`. -/
def mon_name (m : Int) : String :=
  if m < 0 then "???"
  else ["Jan", "Feb", "Mar", "Apr", "May", "Jun",
        "Jul", "Aug", "Sep", "Oct", "Nov", "Dec"].getD m.toNat "???"

/-- The conversion `%d` of `printf`. -/
def fmt_d (n : Int) : String := toString n

/-- The conversion `%.2d` of `printf`: at least two digits. -/
def fmt_d_prec2 (n : Int) : String :=
  if n < 0 then "-" ++ (if n.natAbs < 10 then "0" else "") ++ toString n.natAbs
  else (if n.natAbs < 10 then "0" else "") ++ toString n.natAbs

/-- The conversion `%3d` of `printf`: padded with blanks on the left to three
characters. -/
def fmt_d_width3 (n : Int) : String :=
  let s := toString n
  String.mk (List.replicate (3 - s.length) ' ') ++ s

/-- Modelled from ISO C and the GNU C library: what `fprintf` prints for
`asctime (&t)` under `%s`, for a struct that `mktime` has normalised. The day
of the week is the `tm_wday` that `mktime` stored (1970-01-01 was a Thursday).
`asctime` returns `NULL`, printed as `(null)`, when `1900 + tm_year` overflows. -/
def asctime (t : tm) : String :=
  if INT_MAX - 1900 < t.tm_year then "(null)"
  else
    let wday := (days_from_civil (1900 + t.tm_year) (t.tm_mon + 1) t.tm_mday + 4) % 7
    wday_name wday ++ " " ++ mon_name t.tm_mon ++ fmt_d_width3 t.tm_mday ++ " "
      ++ fmt_d_prec2 t.tm_hour ++ ":" ++ fmt_d_prec2 t.tm_min ++ ":" ++ fmt_d_prec2 t.tm_sec
      ++ " " ++ fmt_d (1900 + t.tm_year) ++ "\n"

/-! ## `main` (lines 102-256) -/

/-- The function `shift_args` of lines 102-110: the first argument, or `none`
for the null pointer, and the arguments that are left. -/
def shift_args (argv : List (List Char)) : Option (List Char) × List (List Char) :=
  match argv with
  | [] => (none, [])
  | arg :: rest => (some arg, rest)

/-- What `%s` prints for the program name (`(null)` for a null pointer). -/
def program_name (program : Option (List Char)) : String :=
  match program with
  | some p => String.mk p
  | none => "(null)"

/-- The macro `DIE_USAGE` of lines 118-122. -/
def DIE_USAGE (program : Option (List Char)) (msg : String) : exit_result :=
  exit_result.returned 1
    ("error: " ++ msg ++ "\n" ++ "Try `" ++ program_name program ++ "` for usage information.\n")

/-- The usage text of lines 125-146. -/
def usage_text (program : Option (List Char)) : String :=
  let p := program_name program
  "USAGE\n" ++
  "   Add duration to date:\n" ++
  "       " ++ p ++ " DATE + DURATION\n" ++
  "\n" ++
  "   Substract duration from date:\n" ++
  "       " ++ p ++ " DATE - DURATION\n" ++
  "\n" ++
  "   Duration between dates:\n" ++
  "       " ++ p ++ " DATE - DATE\n" ++
  "\n" ++
  "   Add durations:\n" ++
  "       " ++ p ++ " DURATION + DURATION\n" ++
  "\n" ++
  "   Substract durations:\n" ++
  "       " ++ p ++ " DURATION - DURATION\n" ++
  "\n" ++
  "SYNTAX\n" ++
  "   DATE := [YYYY-MM-DD] [[hh:mm:ss] [(+|-)hh:mm]]\n" ++
  "         | TODAY\n" ++
  "\n" ++
  "   DURATION := [%years] [%months] [%weeks]\n" ++
  "               [%days] [%hours] [%mins] [%secs]\n"

/-- The output switch of lines 238-255 on the combined `lhs`. -/
def render (utc_offset : Int) (lhs : operand) : exit_result :=
  match lhs.tag with
  | operand_tag.OP_DATE =>
    let r := mktime utc_offset lhs.val
    if r.1 < 0 then exit_result.trapped (ASSERT_message "time value overflow")
    else exit_result.returned 0 ("date: " ++ asctime r.2 ++ "\n")
  | operand_tag.OP_DURATION =>
    exit_result.returned 0
      ("DURATION:\n" ++
       "year: " ++ fmt_d lhs.val.tm_year ++ "\n" ++
       "mont: " ++ fmt_d lhs.val.tm_mon ++ "\n" ++
       "days: " ++ fmt_d lhs.val.tm_mday ++ "\n" ++
       "hour: " ++ fmt_d lhs.val.tm_hour ++ "\n" ++
       "mins: " ++ fmt_d lhs.val.tm_min ++ "\n" ++
       "secs: " ++ fmt_d lhs.val.tm_sec ++ "\n")

/-- Lines 164-255 of `main`: the arithmetic switch, then the output switch. -/
def main_combine (utc_offset : Int) (program : Option (List Char))
    (lhs : operand) (op : operator) (rhs : operand) : exit_result :=
  match combine lhs op rhs with
  | Except.error msg => DIE_USAGE program msg
  | Except.ok lhs2 => render utc_offset lhs2

/-- Lines 156-255 of `main`: the three tokens are parsed, combined and the
result is printed. -/
def main_tokens (today : tm) (utc_offset : Int) (program : Option (List Char))
    (lhs_src op_src rhs_src : List Char) : exit_result :=
  match parse_operand today lhs_src operand_zero with
  | parse_result.undefined_behaviour => exit_result.undefined_behaviour
  | parse_result.returned c1 lhs =>
    if c1 < 0 then DIE_USAGE program "left operand is illformed"
    else
      let r := parse_operator op_src none
      if r.1 < 0 then DIE_USAGE program "operator is illformed"
      else
        match parse_operand today rhs_src operand_zero with
        | parse_result.undefined_behaviour => exit_result.undefined_behaviour
        | parse_result.returned c2 rhs =>
          if c2 < 0 then DIE_USAGE program "right operand is illformed"
          else
            match r.2 with
            | some op => main_combine utc_offset program lhs op rhs
            | none => exit_result.undefined_behaviour

/-- The function `main` of lines 112-256. `clock` is the reading of
`time (0)`, `utc_offset` the offset of the local time zone that `mktime` uses,
and `argv` the argument vector, program name first. The last branch is not
reached: `lhs_src` is shifted from a vector that line 124 found not empty. -/
def main (clock utc_offset : Int) (argv : List (List Char)) : exit_result :=
  match init_today clock with
  | Except.error e => e
  | Except.ok today =>
    let s0 := shift_args argv
    let program := s0.1
    if s0.2.length = 0 then exit_result.returned 0 (usage_text program)
    else
      let s1 := shift_args s0.2
      let s2 := shift_args s1.2
      match s2.1 with
      | none => DIE_USAGE program "expected `+` or `-`"
      | some op_src =>
        let s3 := shift_args s2.2
        match s3.1 with
        | none => DIE_USAGE program "expected right operand"
        | some rhs_src =>
          match s1.1 with
          | some lhs_src => main_tokens today utc_offset program lhs_src op_src rhs_src
          | none => exit_result.undefined_behaviour

/-! ## Statement vocabulary -/

/-- The six field sums fit a C `int`. -/
def fits_add (l r : tm) : Prop :=
  in_int (l.tm_year + r.tm_year) ∧ in_int (l.tm_mon + r.tm_mon) ∧
  in_int (l.tm_mday + r.tm_mday) ∧ in_int (l.tm_hour + r.tm_hour) ∧
  in_int (l.tm_min + r.tm_min) ∧ in_int (l.tm_sec + r.tm_sec)

/-- The six field differences fit a C `int`. -/
def fits_sub (l r : tm) : Prop :=
  in_int (l.tm_year - r.tm_year) ∧ in_int (l.tm_mon - r.tm_mon) ∧
  in_int (l.tm_mday - r.tm_mday) ∧ in_int (l.tm_hour - r.tm_hour) ∧
  in_int (l.tm_min - r.tm_min) ∧ in_int (l.tm_sec - r.tm_sec)

instance (l r : tm) : Decidable (fits_add l r) := by
  unfold fits_add; exact inferInstance

instance (l r : tm) : Decidable (fits_sub l r) := by
  unfold fits_sub; exact inferInstance

/-- The seven unit keywords of lines 74-80. -/
inductive unit_kw
  | years | months | weeks | days | hours | mins | secs
  deriving DecidableEq, Repr

/-- The text of a unit keyword. -/
def unit_kw.keyword : unit_kw → List Char
  | unit_kw.years => "years".toList
  | unit_kw.months => "months".toList
  | unit_kw.weeks => "weeks".toList
  | unit_kw.days => "days".toList
  | unit_kw.hours => "hours".toList
  | unit_kw.mins => "mins".toList
  | unit_kw.secs => "secs".toList

/-- The decimal numeral of an integer, as `%d` prints it: `-` for a negative
number, then the digits without leading zeros. -/
def decimal (n : Int) : List Char := (toString n).toList

/-- The Duration token of a list of (value, unit) pairs: each decimal value
followed immediately by its unit keyword, the pairs one after the other. -/
def duration_token : List (Int × unit_kw) → List Char
  | [] => []
  | p :: ps => decimal p.1 ++ (p.2.keyword ++ duration_token ps)

/-- Sum of the values that a list of pairs gives for one unit. -/
def unit_total (u : unit_kw) : List (Int × unit_kw) → Int
  | [] => 0
  | p :: ps => (if p.2 = u then p.1 else 0) + unit_total u ps

/-- The field update that lines 74-80 make for one (value, unit) pair. -/
def accumulate (v : tm) (val : Int) : unit_kw → tm
  | unit_kw.years => { v with tm_year := wrap_int (v.tm_year + val) }
  | unit_kw.months => { v with tm_mon := wrap_int (v.tm_mon + val) }
  | unit_kw.weeks => { v with tm_mday := wrap_int (v.tm_mday + wrap_int (val * 7)) }
  | unit_kw.days => { v with tm_mday := wrap_int (v.tm_mday + val) }
  | unit_kw.hours => { v with tm_hour := wrap_int (v.tm_hour + val) }
  | unit_kw.mins => { v with tm_min := wrap_int (v.tm_min + val) }
  | unit_kw.secs => { v with tm_sec := wrap_int (v.tm_sec + val) }

/-- The struct after the updates of a list of pairs, in order. -/
def accumulate_all (v : tm) : List (Int × unit_kw) → tm
  | [] => v
  | p :: ps => accumulate_all (accumulate v p.1 p.2) ps

/-- The values of `val` and `skip` after the loop has scanned a list of
pairs: those of the last pair, or the old ones when the list is empty. -/
def last_scan (last : Option (Int × Nat)) : List (Int × unit_kw) → Option (Int × Nat)
  | [] => last
  | p :: ps => last_scan (some (p.1, (decimal p.1).length)) ps

/-- None of the seven unit keywords starts the text. -/
def no_unit (src : List Char) : Prop :=
  SV_EAT src "years".toList = none ∧ SV_EAT src "months".toList = none ∧
  SV_EAT src "weeks".toList = none ∧ SV_EAT src "days".toList = none ∧
  SV_EAT src "hours".toList = none ∧ SV_EAT src "mins".toList = none ∧
  SV_EAT src "secs".toList = none

instance (src : List Char) : Decidable (no_unit src) := by
  unfold no_unit; exact inferInstance

/-- The text does not start with a digit (it may be empty). -/
def no_digit_ahead (src : List Char) : Prop :=
  ∀ c ∈ src.head?, isdigit c = false

instance (src : List Char) : Decidable (no_digit_ahead src) := by
  unfold no_digit_ahead; exact inferInstance

/-- The text is white space only (it may be empty). -/
def all_space (src : List Char) : Prop :=
  ∀ c ∈ src, isspace c = true

instance (src : List Char) : Decidable (all_space src) := by
  unfold all_space; exact inferInstance

/-- Two decimal digits of a number below 100, with a leading zero. -/
def two_digits (n : Nat) : List Char :=
  [Nat.digitChar (n / 10), Nat.digitChar (n % 10)]

/-- Four decimal digits of a number below 10000, with leading zeros. -/
def four_digits (n : Nat) : List Char :=
  [Nat.digitChar (n / 1000), Nat.digitChar (n / 100 % 10), Nat.digitChar (n / 10 % 10),
   Nat.digitChar (n % 10)]

/-- The token `YYYY-MM-DD` of a year, a month and a day. -/
def date_token (Y M D : Nat) : List Char :=
  four_digits Y ++ ('-' :: (two_digits M ++ ('-' :: two_digits D)))

/-- The token `HH:MM:SS` of an hour, a minute and a second. -/
def time_token (H M S : Nat) : List Char :=
  two_digits H ++ (':' :: (two_digits M ++ (':' :: two_digits S)))

/-- The six fields of a struct fit a C `int`. -/
def tm_in_int (v : tm) : Prop :=
  in_int v.tm_year ∧ in_int v.tm_mon ∧ in_int v.tm_mday ∧
  in_int v.tm_hour ∧ in_int v.tm_min ∧ in_int v.tm_sec

instance (v : tm) : Decidable (tm_in_int v) := by
  unfold tm_in_int; exact inferInstance

/-- The Duration that a list of pairs stands for: per field, the sum of the
values of its unit, a week counting as seven days. -/
def duration_of (ps : List (Int × unit_kw)) : tm :=
  { tm_sec := unit_total unit_kw.secs ps
    tm_min := unit_total unit_kw.mins ps
    tm_hour := unit_total unit_kw.hours ps
    tm_mday := 7 * unit_total unit_kw.weeks ps + unit_total unit_kw.days ps
    tm_mon := unit_total unit_kw.months ps
    tm_year := unit_total unit_kw.years ps
    tm_gmtoff := 0 }

/-! ## Arithmetic facts about `wrap_int` -/

theorem wrap_int_of_in_int {x : Int} (h : in_int x) : wrap_int x = x := by
  unfold in_int INT_MIN INT_MAX at h
  unfold wrap_int
  omega

theorem in_int_wrap_int (x : Int) : in_int (wrap_int x) := by
  unfold in_int INT_MIN INT_MAX wrap_int
  omega

theorem add_fields_exact {l r : tm} (h : fits_add l r) :
    add_fields l r =
      { l with
        tm_year := l.tm_year + r.tm_year, tm_mon := l.tm_mon + r.tm_mon,
        tm_mday := l.tm_mday + r.tm_mday, tm_hour := l.tm_hour + r.tm_hour,
        tm_min := l.tm_min + r.tm_min, tm_sec := l.tm_sec + r.tm_sec } := by
  obtain ⟨h1, h2, h3, h4, h5, h6⟩ := h
  simp only [add_fields, wrap_int_of_in_int h1, wrap_int_of_in_int h2, wrap_int_of_in_int h3,
    wrap_int_of_in_int h4, wrap_int_of_in_int h5, wrap_int_of_in_int h6]

theorem sub_fields_exact {l r : tm} (h : fits_sub l r) :
    sub_fields l r =
      { l with
        tm_year := l.tm_year - r.tm_year, tm_mon := l.tm_mon - r.tm_mon,
        tm_mday := l.tm_mday - r.tm_mday, tm_hour := l.tm_hour - r.tm_hour,
        tm_min := l.tm_min - r.tm_min, tm_sec := l.tm_sec - r.tm_sec } := by
  obtain ⟨h1, h2, h3, h4, h5, h6⟩ := h
  simp only [sub_fields, wrap_int_of_in_int h1, wrap_int_of_in_int h2, wrap_int_of_in_int h3,
    wrap_int_of_in_int h4, wrap_int_of_in_int h5, wrap_int_of_in_int h6]

/-! ## The rule table of the arithmetic switch -/

/-- C1: Date minus Date succeeds and gives a Duration whose six fields are the
differences `lhs.field - rhs.field` of the same field of the two operands (no
carry or borrow between fields), whenever these differences fit a C `int`. -/
theorem date_sub_date (lhs rhs : operand)
    (hl : lhs.tag = operand_tag.OP_DATE) (hr : rhs.tag = operand_tag.OP_DATE)
    (hfit : fits_sub lhs.val rhs.val) :
    combine lhs operator.OP_SUB rhs =
      Except.ok
        { tag := operand_tag.OP_DURATION,
          val := { lhs.val with
            tm_year := lhs.val.tm_year - rhs.val.tm_year,
            tm_mon := lhs.val.tm_mon - rhs.val.tm_mon,
            tm_mday := lhs.val.tm_mday - rhs.val.tm_mday,
            tm_hour := lhs.val.tm_hour - rhs.val.tm_hour,
            tm_min := lhs.val.tm_min - rhs.val.tm_min,
            tm_sec := lhs.val.tm_sec - rhs.val.tm_sec } } := by
  simp only [combine, hl, hr, sub_fields_exact hfit]

/-- Witness of C1: 2024-03-01 minus 2024-01-01 is the Duration of 0 years, 2
months and 0 days. -/
theorem date_sub_date_witness :
    combine ⟨operand_tag.OP_DATE, ⟨0, 0, 0, 1, 2, 124, 0⟩⟩ operator.OP_SUB
        ⟨operand_tag.OP_DATE, ⟨0, 0, 0, 1, 0, 124, 0⟩⟩ =
      Except.ok ⟨operand_tag.OP_DURATION, ⟨0, 0, 0, 0, 2, 0, 0⟩⟩ :=
  date_sub_date ⟨operand_tag.OP_DATE, ⟨0, 0, 0, 1, 2, 124, 0⟩⟩
    ⟨operand_tag.OP_DATE, ⟨0, 0, 0, 1, 0, 124, 0⟩⟩ rfl rfl (by decide)

/-- C2: Date plus Duration is a Date whose six fields are the sums
`lhs.field + rhs.field`, and Date minus Duration is a Date whose six fields
are the differences `lhs.field - rhs.field`, whenever these fit a C `int`; the
tag stays Date in both cases. -/
theorem date_add_sub_duration (lhs rhs : operand)
    (hl : lhs.tag = operand_tag.OP_DATE) (hr : rhs.tag = operand_tag.OP_DURATION) :
    (fits_add lhs.val rhs.val →
      combine lhs operator.OP_ADD rhs =
        Except.ok
          { tag := operand_tag.OP_DATE,
            val := { lhs.val with
              tm_year := lhs.val.tm_year + rhs.val.tm_year,
              tm_mon := lhs.val.tm_mon + rhs.val.tm_mon,
              tm_mday := lhs.val.tm_mday + rhs.val.tm_mday,
              tm_hour := lhs.val.tm_hour + rhs.val.tm_hour,
              tm_min := lhs.val.tm_min + rhs.val.tm_min,
              tm_sec := lhs.val.tm_sec + rhs.val.tm_sec } }) ∧
    (fits_sub lhs.val rhs.val →
      combine lhs operator.OP_SUB rhs =
        Except.ok
          { tag := operand_tag.OP_DATE,
            val := { lhs.val with
              tm_year := lhs.val.tm_year - rhs.val.tm_year,
              tm_mon := lhs.val.tm_mon - rhs.val.tm_mon,
              tm_mday := lhs.val.tm_mday - rhs.val.tm_mday,
              tm_hour := lhs.val.tm_hour - rhs.val.tm_hour,
              tm_min := lhs.val.tm_min - rhs.val.tm_min,
              tm_sec := lhs.val.tm_sec - rhs.val.tm_sec } }) := by
  constructor
  · intro hfit
    simp only [combine, hl, hr, add_fields_exact hfit]
  · intro hfit
    simp only [combine, hl, hr, sub_fields_exact hfit]

/-- Witness of C2: 2024-01-01 plus and minus the Duration of 10 days. -/
theorem date_add_sub_duration_witness :
    combine ⟨operand_tag.OP_DATE, ⟨0, 0, 0, 1, 0, 124, 0⟩⟩ operator.OP_ADD
        ⟨operand_tag.OP_DURATION, ⟨0, 0, 0, 10, 0, 0, 0⟩⟩ =
      Except.ok ⟨operand_tag.OP_DATE, ⟨0, 0, 0, 11, 0, 124, 0⟩⟩ ∧
    combine ⟨operand_tag.OP_DATE, ⟨0, 0, 0, 1, 0, 124, 0⟩⟩ operator.OP_SUB
        ⟨operand_tag.OP_DURATION, ⟨0, 0, 0, 10, 0, 0, 0⟩⟩ =
      Except.ok ⟨operand_tag.OP_DATE, ⟨0, 0, 0, -9, 0, 124, 0⟩⟩ :=
  ⟨(date_add_sub_duration ⟨operand_tag.OP_DATE, ⟨0, 0, 0, 1, 0, 124, 0⟩⟩
      ⟨operand_tag.OP_DURATION, ⟨0, 0, 0, 10, 0, 0, 0⟩⟩ rfl rfl).1 (by decide),
   (date_add_sub_duration ⟨operand_tag.OP_DATE, ⟨0, 0, 0, 1, 0, 124, 0⟩⟩
      ⟨operand_tag.OP_DURATION, ⟨0, 0, 0, 10, 0, 0, 0⟩⟩ rfl rfl).2 (by decide)⟩

/-- C3: Duration plus Duration is a Duration of the field-wise sums, and
Duration minus Duration is a Duration of the field-wise differences, whenever
these fit a C `int`; every field of the result comes from the same field of the
operands alone. -/
theorem duration_add_sub_duration (lhs rhs : operand)
    (hl : lhs.tag = operand_tag.OP_DURATION) (hr : rhs.tag = operand_tag.OP_DURATION) :
    (fits_add lhs.val rhs.val →
      combine lhs operator.OP_ADD rhs =
        Except.ok
          { tag := operand_tag.OP_DURATION,
            val := { lhs.val with
              tm_year := lhs.val.tm_year + rhs.val.tm_year,
              tm_mon := lhs.val.tm_mon + rhs.val.tm_mon,
              tm_mday := lhs.val.tm_mday + rhs.val.tm_mday,
              tm_hour := lhs.val.tm_hour + rhs.val.tm_hour,
              tm_min := lhs.val.tm_min + rhs.val.tm_min,
              tm_sec := lhs.val.tm_sec + rhs.val.tm_sec } }) ∧
    (fits_sub lhs.val rhs.val →
      combine lhs operator.OP_SUB rhs =
        Except.ok
          { tag := operand_tag.OP_DURATION,
            val := { lhs.val with
              tm_year := lhs.val.tm_year - rhs.val.tm_year,
              tm_mon := lhs.val.tm_mon - rhs.val.tm_mon,
              tm_mday := lhs.val.tm_mday - rhs.val.tm_mday,
              tm_hour := lhs.val.tm_hour - rhs.val.tm_hour,
              tm_min := lhs.val.tm_min - rhs.val.tm_min,
              tm_sec := lhs.val.tm_sec - rhs.val.tm_sec } }) := by
  constructor
  · intro hfit
    simp only [combine, hl, hr, add_fields_exact hfit]
  · intro hfit
    simp only [combine, hl, hr, sub_fields_exact hfit]

/-- Witness of C3: 90 minutes plus and minus 45 minutes 30 seconds; the
negative seconds of the difference are not borrowed from the minutes. -/
theorem duration_add_sub_duration_witness :
    combine ⟨operand_tag.OP_DURATION, ⟨0, 90, 0, 0, 0, 0, 0⟩⟩ operator.OP_ADD
        ⟨operand_tag.OP_DURATION, ⟨30, 45, 0, 0, 0, 0, 0⟩⟩ =
      Except.ok ⟨operand_tag.OP_DURATION, ⟨30, 135, 0, 0, 0, 0, 0⟩⟩ ∧
    combine ⟨operand_tag.OP_DURATION, ⟨0, 90, 0, 0, 0, 0, 0⟩⟩ operator.OP_SUB
        ⟨operand_tag.OP_DURATION, ⟨30, 45, 0, 0, 0, 0, 0⟩⟩ =
      Except.ok ⟨operand_tag.OP_DURATION, ⟨-30, 45, 0, 0, 0, 0, 0⟩⟩ :=
  ⟨(duration_add_sub_duration ⟨operand_tag.OP_DURATION, ⟨0, 90, 0, 0, 0, 0, 0⟩⟩
      ⟨operand_tag.OP_DURATION, ⟨30, 45, 0, 0, 0, 0, 0⟩⟩ rfl rfl).1 (by decide),
   (duration_add_sub_duration ⟨operand_tag.OP_DURATION, ⟨0, 90, 0, 0, 0, 0, 0⟩⟩
      ⟨operand_tag.OP_DURATION, ⟨30, 45, 0, 0, 0, 0, 0⟩⟩ rfl rfl).2 (by decide)⟩

/-- C4: for every pair of Date operands, whatever their fields, Add produces
no result: the switch leaves `main` through `DIE_USAGE` with the message
"can't add dates", and the exit status is 1. -/
theorem date_add_date_dies (lhs rhs : operand)
    (hl : lhs.tag = operand_tag.OP_DATE) (hr : rhs.tag = operand_tag.OP_DATE)
    (utc_offset : Int) (program : Option (List Char)) :
    combine lhs operator.OP_ADD rhs = Except.error "can't add dates" ∧
    main_combine utc_offset program lhs operator.OP_ADD rhs =
      exit_result.returned 1
        ("error: can't add dates\n" ++
         "Try `" ++ program_name program ++ "` for usage information.\n") := by
  have h : combine lhs operator.OP_ADD rhs = Except.error "can't add dates" := by
    simp only [combine, hl, hr]
  refine ⟨h, ?_⟩
  simp only [main_combine, h, DIE_USAGE]
  rfl

/-- Witness of C4: 2024-03-01 plus 2024-01-01. -/
theorem date_add_date_dies_witness :
    combine ⟨operand_tag.OP_DATE, ⟨0, 0, 0, 1, 2, 124, 0⟩⟩ operator.OP_ADD
        ⟨operand_tag.OP_DATE, ⟨0, 0, 0, 1, 0, 124, 0⟩⟩ = Except.error "can't add dates" ∧
    main_combine 0 (some "timecalc".toList) ⟨operand_tag.OP_DATE, ⟨0, 0, 0, 1, 2, 124, 0⟩⟩
        operator.OP_ADD ⟨operand_tag.OP_DATE, ⟨0, 0, 0, 1, 0, 124, 0⟩⟩ =
      exit_result.returned 1
        ("error: can't add dates\n" ++
         "Try `" ++ program_name (some "timecalc".toList) ++ "` for usage information.\n") :=
  date_add_date_dies ⟨operand_tag.OP_DATE, ⟨0, 0, 0, 1, 2, 124, 0⟩⟩
    ⟨operand_tag.OP_DATE, ⟨0, 0, 0, 1, 0, 124, 0⟩⟩ rfl rfl 0 (some "timecalc".toList)

/-- C5: for every Duration `lhs` and Date `rhs`, and for Add and Subtract
alike, the switch leaves `main` through `DIE_USAGE` with the message "can't do
arithmetic between duration and date", and the exit status is 1. -/
theorem duration_date_dies (lhs rhs : operand) (op : operator)
    (hl : lhs.tag = operand_tag.OP_DURATION) (hr : rhs.tag = operand_tag.OP_DATE)
    (utc_offset : Int) (program : Option (List Char)) :
    combine lhs op rhs = Except.error "can't do arithmetic between duration and date" ∧
    main_combine utc_offset program lhs op rhs =
      exit_result.returned 1
        ("error: can't do arithmetic between duration and date\n" ++
         "Try `" ++ program_name program ++ "` for usage information.\n") := by
  have h : combine lhs op rhs =
      Except.error "can't do arithmetic between duration and date" := by
    simp only [combine, hl, hr]
  refine ⟨h, ?_⟩
  simp only [main_combine, h, DIE_USAGE]
  rfl

/-- Witness of C5: the Duration of 10 days minus the Date 2024-01-01. -/
theorem duration_date_dies_witness :
    combine ⟨operand_tag.OP_DURATION, ⟨0, 0, 0, 10, 0, 0, 0⟩⟩ operator.OP_SUB
        ⟨operand_tag.OP_DATE, ⟨0, 0, 0, 1, 0, 124, 0⟩⟩ =
      Except.error "can't do arithmetic between duration and date" ∧
    main_combine 0 (some "timecalc".toList) ⟨operand_tag.OP_DURATION, ⟨0, 0, 0, 10, 0, 0, 0⟩⟩
        operator.OP_SUB ⟨operand_tag.OP_DATE, ⟨0, 0, 0, 1, 0, 124, 0⟩⟩ =
      exit_result.returned 1
        ("error: can't do arithmetic between duration and date\n" ++
         "Try `" ++ program_name (some "timecalc".toList) ++ "` for usage information.\n") :=
  duration_date_dies ⟨operand_tag.OP_DURATION, ⟨0, 0, 0, 10, 0, 0, 0⟩⟩
    ⟨operand_tag.OP_DATE, ⟨0, 0, 0, 1, 0, 124, 0⟩⟩ operator.OP_SUB rfl rfl 0
    (some "timecalc".toList)

/-! ## Scanning a decimal numeral -/

theorem isdigit_digitChar (d : Nat) (h : d < 10) : isdigit (Nat.digitChar d) = true := by
  interval_cases d <;> rfl

theorem digitChar_value (d : Nat) (h : d < 10) : (Nat.digitChar d).toNat - 48 = d := by
  interval_cases d <;> rfl

theorem digits_value_snoc (l : List Char) (c : Char) :
    digits_value (l ++ [c]) = 10 * digits_value l + (c.toNat - 48) := by
  simp [digits_value, List.foldl_append]

/-- The digits that `Nat.toDigitsCore` puts in front of its accumulator are
a non-empty run of digit characters whose value is the number. -/
theorem toDigitsCore_spec : ∀ (fuel m : Nat) (ds : List Char), m < fuel →
    ∃ l, Nat.toDigitsCore 10 fuel m ds = l ++ ds ∧ l ≠ [] ∧
      (∀ c ∈ l, isdigit c = true) ∧ digits_value l = m := by
  intro fuel
  induction fuel with
  | zero => intro m ds h; omega
  | succ fuel ih =>
    intro m ds h
    unfold Nat.toDigitsCore
    by_cases h0 : m / 10 = 0
    · refine ⟨[Nat.digitChar (m % 10)], ?_, ?_, ?_, ?_⟩
      · simp [h0]
      · simp
      · intro c hc
        simp only [List.mem_singleton] at hc
        rw [hc]
        exact isdigit_digitChar _ (Nat.mod_lt _ (by decide))
      · have := digitChar_value (m % 10) (Nat.mod_lt _ (by decide))
        simp only [digits_value, List.foldl_cons, List.foldl_nil]
        omega
    · obtain ⟨l, hl, _, hd, hv⟩ := ih (m / 10) (Nat.digitChar (m % 10) :: ds) (by omega)
      refine ⟨l ++ [Nat.digitChar (m % 10)], ?_, ?_, ?_, ?_⟩
      · simp [h0, hl]
      · simp
      · intro c hc
        rcases List.mem_append.1 hc with hc | hc
        · exact hd c hc
        · simp only [List.mem_singleton] at hc
          rw [hc]
          exact isdigit_digitChar _ (Nat.mod_lt _ (by decide))
      · have := digitChar_value (m % 10) (Nat.mod_lt _ (by decide))
        rw [digits_value_snoc, hv]
        omega

theorem toDigits_spec (m : Nat) :
    Nat.toDigits 10 m ≠ [] ∧ (∀ c ∈ Nat.toDigits 10 m, isdigit c = true) ∧
      digits_value (Nat.toDigits 10 m) = m := by
  obtain ⟨l, hl, hne, hd, hv⟩ := toDigitsCore_spec (m + 1) m [] (by omega)
  have : Nat.toDigits 10 m = l := by simpa [Nat.toDigits] using hl
  rw [this]
  exact ⟨hne, hd, hv⟩

theorem decimal_eq (n : Int) :
    decimal n = if n < 0 then '-' :: Nat.toDigits 10 n.natAbs else Nat.toDigits 10 n.natAbs := by
  cases n with
  | ofNat m =>
    have h : ¬ (Int.ofNat m < 0) := by simp
    rw [if_neg h]
    rfl
  | negSucc m =>
    have h : Int.negSucc m < 0 := Int.negSucc_lt_zero m
    rw [if_pos h]
    rfl

theorem isspace_of_isdigit {c : Char} (h : isdigit c = true) : isspace c = false := by
  simp only [isdigit, isspace, decide_eq_true_eq, decide_eq_false_iff_not] at *
  omega

theorem not_sign_of_isdigit {c : Char} (h : isdigit c = true) : ¬ (c = '-' ∨ c = '+') := by
  simp only [isdigit, decide_eq_true_eq] at h
  rintro (rfl | rfl) <;> simp at h

theorem takeWhile_isdigit_append (l rest : List Char) (hl : ∀ c ∈ l, isdigit c = true)
    (hrest : ∀ c ∈ rest.head?, isdigit c = false) :
    (l ++ rest).takeWhile isdigit = l := by
  rw [List.takeWhile_append_of_pos hl]
  cases rest with
  | nil => simp
  | cons c r =>
    have : isdigit c = false := hrest c (by simp)
    simp [List.takeWhile, this]

/-- Scanning `%d%n` over the decimal numeral of an `int`, followed by text that
does not go on with a digit, reads the numeral back and counts its length. -/
theorem sscanf_d_decimal (n : Int) (hn : in_int n) (rest : List Char)
    (hrest : ∀ c ∈ rest.head?, isdigit c = false) :
    sscanf_d (decimal n ++ rest) = scan_result.matched n (decimal n).length := by
  obtain ⟨hne, hd, hv⟩ := toDigits_spec n.natAbs
  have hclamp : wrap_int (clamp_long n) = n := by
    unfold in_int INT_MIN INT_MAX at hn
    unfold wrap_int clamp_long
    omega
  rw [decimal_eq]
  have htw := takeWhile_isdigit_append _ rest hd hrest
  by_cases hneg : n < 0
  · have hval : -((digits_value (Nat.toDigits 10 n.natAbs) : Nat) : Int) = n := by
      rw [hv]; omega
    have h1 : isspace '-' = false := by decide
    have he : (Nat.toDigits 10 n.natAbs).isEmpty = false := by
      cases h : Nat.toDigits 10 n.natAbs with
      | nil => exact absurd h hne
      | cons _ _ => rfl
    simp only [if_pos hneg, sscanf_d, List.cons_append, List.dropWhile_cons, List.takeWhile_cons,
      h1, Bool.false_eq_true, if_false, true_or, decide_True, if_true, htw, he, hval, hclamp,
      List.length_nil, List.length_cons]
    congr 1
    omega
  · obtain ⟨c, l, hcl⟩ := List.exists_cons_of_ne_nil hne
    have hc : isdigit c = true := hd c (by simp [hcl])
    have hval : ((digits_value (Nat.toDigits 10 n.natAbs) : Nat) : Int) = n := by
      rw [hv]; omega
    have hsp := isspace_of_isdigit hc
    have hm : c ≠ '-' := fun h => not_sign_of_isdigit hc (Or.inl h)
    have hp : c ≠ '+' := fun h => not_sign_of_isdigit hc (Or.inr h)
    rw [hcl] at htw hval
    simp only [List.cons_append] at htw
    simp only [if_neg hneg, hcl, sscanf_d, List.cons_append, List.dropWhile_cons,
      List.takeWhile_cons, hsp, Bool.false_eq_true, if_false, hm, hp, or_self, decide_False,
      htw, hval, hclamp, List.isEmpty_cons, List.length_nil, List.length_cons]
    congr 1
    omega

/-! ## The loop of `parse_duration` ends within its bound -/

theorem sscanf_d_skip_pos (src : List Char) (v : Int) (k : Nat)
    (h : sscanf_d src = scan_result.matched v k) : 1 ≤ k := by
  unfold sscanf_d at h
  split at h
  · exact absurd h (by simp)
  · dsimp only at h
    have hne : ∀ l : List Char, ¬ l.isEmpty = true → 0 < l.length :=
      fun l hl => List.length_pos.2 (by rwa [List.isEmpty_iff] at hl)
    split_ifs at h
    all_goals
      have hk := (scan_result.matched.inj h).2
      have hpos := hne _ (by assumption)
      omega

theorem SV_EAT_length (kw : List Char) : ∀ (src r : List Char),
    SV_EAT src kw = some r → r.length ≤ src.length := by
  induction kw with
  | nil =>
    intro src r h
    rw [SV_EAT] at h
    rw [Option.some.inj h]
  | cons k kw ih =>
    intro src r h
    cases src with
    | nil => rw [SV_EAT] at h; exact absurd h (by simp)
    | cons c src =>
      rw [SV_EAT] at h
      split_ifs at h
      have := ih src r h
      simp only [List.length_cons]
      omega

/-- The bound of `parse_duration` is never reached: with more iterations
allowed than `src` has characters, the loop gives a result. -/
theorem parse_duration_loop_fuel : ∀ (fuel : Nat) (src : List Char) (last : Option (Int × Nat))
    (dst : operand), src.length < fuel → (∀ v k, last = some (v, k) → 1 ≤ k) →
    parse_duration_loop fuel src last dst ≠ none := by
  intro fuel
  induction fuel with
  | zero => intro src last dst h; omega
  | succ fuel ih =>
    intro src last dst hlen hlast
    rw [parse_duration_loop]
    dsimp only
    split_ifs with h1
    · simp
    · have hcur : ∀ v k, (match sscanf_d src with
          | scan_result.matched val skip => some (val, skip)
          | _ => last) = some (v, k) → 1 ≤ k := by
        intro v k
        split
        · rename_i val skip hs
          intro e
          have e2 := Option.some.inj e
          have := sscanf_d_skip_pos src val skip hs
          have e3 : skip = k := congrArg Prod.snd e2
          omega
        · exact hlast v k
      generalize (match sscanf_d src with
          | scan_result.matched val skip => some (val, skip)
          | _ => last) = cur at hcur
      cases cur with
      | none => simp
      | some p =>
        obtain ⟨val, skip⟩ := p
        have hs := hcur val skip rfl
        dsimp only
        split_ifs with h2
        · simp
        · have hd : (List.drop skip src).length < fuel := by
            rw [List.length_drop]; omega
          have step : ∀ (kw r : List Char) (d : operand),
              SV_EAT (List.drop skip src) kw = some r →
              parse_duration_loop fuel r (some (val, skip)) d ≠ none := by
            intro kw r d hr
            exact ih r _ d (lt_of_le_of_lt (SV_EAT_length kw _ r hr) hd) hcur
          split
          · exact step _ _ _ (by assumption)
          · split
            · exact step _ _ _ (by assumption)
            · split
              · exact step _ _ _ (by assumption)
              · split
                · exact step _ _ _ (by assumption)
                · split
                  · exact step _ _ _ (by assumption)
                  · split
                    · exact step _ _ _ (by assumption)
                    · split
                      · exact step _ _ _ (by assumption)
                      · simp

/-- The function `parse_duration` never takes its last branch. -/
theorem parse_duration_eq (src : List Char) (dst : operand) :
    parse_duration_loop (src.length + 1) src none dst = some (parse_duration src dst) := by
  have h := parse_duration_loop_fuel (src.length + 1) src none dst (by omega)
    (fun v k e => absurd e (by simp))
  unfold parse_duration
  cases hr : parse_duration_loop (src.length + 1) src none dst with
  | none => exact absurd hr h
  | some r => rfl

/-! ## The loop of `parse_duration` on well-formed pairs -/

theorem keyword_head (u : unit_kw) (rest : List Char) :
    ∀ c ∈ (u.keyword ++ rest).head?, isdigit c = false := by
  intro c hc
  cases u <;> (cases hc; rfl)

theorem SV_EAT_self (kw rest : List Char) : SV_EAT (kw ++ rest) kw = some rest := by
  induction kw with
  | nil => rfl
  | cons k kw ih => simp [SV_EAT, ih]

/-- One round of the loop over a well-formed pair: the value is scanned, the
keyword is eaten, and the field of the unit is updated. -/
theorem parse_duration_loop_pair (fuel : Nat) (n : Int) (hn : in_int n) (u : unit_kw)
    (rest : List Char) (last : Option (Int × Nat)) (dst : operand) :
    parse_duration_loop (fuel + 1) (decimal n ++ (u.keyword ++ rest)) last dst =
      parse_duration_loop fuel rest (some (n, (decimal n).length))
        { dst with val := accumulate dst.val n u } := by
  rw [parse_duration_loop]
  simp only [sscanf_d_decimal n hn _ (keyword_head u rest), scan_result.ret]
  have hlen : ¬ ((decimal n ++ (u.keyword ++ rest)).length < (decimal n).length) := by
    simp
  simp only [hlen, if_false, List.drop_left, show ¬ ((1 : Int) < 0) by decide]
  cases u <;> rfl

/-- The loop over a run of well-formed pairs followed by any text: after one
round per pair the loop stands at the text, with the fields updated. -/
theorem parse_duration_loop_pairs (ps : List (Int × unit_kw)) :
    (∀ p ∈ ps, in_int p.1) → ∀ (fuel : Nat) (tail : List Char) (last : Option (Int × Nat))
      (dst : operand),
      parse_duration_loop (fuel + ps.length) (duration_token ps ++ tail) last dst =
        parse_duration_loop fuel tail (last_scan last ps)
          { dst with val := accumulate_all dst.val ps } := by
  induction ps with
  | nil => intro _ fuel tail last dst; rfl
  | cons p ps ih =>
    intro hn fuel tail last dst
    have hp : in_int p.1 := hn p (by simp)
    have hps : ∀ q ∈ ps, in_int q.1 := fun q hq => hn q (by simp [hq])
    have e : duration_token (p :: ps) ++ tail =
        decimal p.1 ++ (p.2.keyword ++ (duration_token ps ++ tail)) := by
      simp [duration_token, List.append_assoc]
    rw [e, List.length_cons, ← Nat.add_assoc, parse_duration_loop_pair _ _ hp,
      ih hps]
    rfl

/-- The loop ends with success when only white space is left. -/
theorem parse_duration_loop_end (fuel : Nat) (ws : List Char)
    (hws : ∀ c ∈ ws, isspace c = true) (last : Option (Int × Nat)) (dst : operand) :
    parse_duration_loop (fuel + 1) ws last dst =
      some (parse_result.returned 0 { dst with tag := operand_tag.OP_DURATION }) := by
  have h : ws.dropWhile isspace = [] := List.dropWhile_eq_nil_iff.2 hws
  rw [parse_duration_loop]
  simp [sscanf_d, h, scan_result.ret]

/-- The loop returns -1, leaving `dst` as it is, when an integer is left that
no unit keyword follows. -/
theorem parse_duration_loop_no_unit (fuel : Nat) (n : Int) (hn : in_int n) (rest : List Char)
    (hd : ∀ c ∈ rest.head?, isdigit c = false) (hu : no_unit rest)
    (last : Option (Int × Nat)) (dst : operand) :
    parse_duration_loop (fuel + 1) (decimal n ++ rest) last dst =
      some (parse_result.returned (-1) dst) := by
  rw [parse_duration_loop]
  simp only [sscanf_d_decimal n hn _ hd, scan_result.ret]
  have hlen : ¬ ((decimal n ++ rest).length < (decimal n).length) := by simp
  simp only [hlen, if_false, List.drop_left, show ¬ ((1 : Int) < 0) by decide]
  obtain ⟨h1, h2, h3, h4, h5, h6, h7⟩ := hu
  simp only [h1, h2, h3, h4, h5, h6, h7]

theorem length_duration_token (ps : List (Int × unit_kw)) :
    ps.length ≤ (duration_token ps).length := by
  induction ps with
  | nil => simp
  | cons p ps ih =>
    have : 1 ≤ p.2.keyword.length := by cases p.2 <;> decide
    simp only [duration_token, List.length_cons, List.length_append]
    omega

/-! ## The sums that the loop leaves in the fields -/

theorem wrap_int_add_left (a b : Int) : wrap_int (wrap_int a + b) = wrap_int (a + b) := by
  unfold wrap_int; omega

theorem wrap_int_add_right (a b : Int) : wrap_int (a + wrap_int b) = wrap_int (a + b) := by
  unfold wrap_int; omega

theorem tm_in_int_accumulate {v : tm} (hv : tm_in_int v) (n : Int) (u : unit_kw) :
    tm_in_int (accumulate v n u) := by
  obtain ⟨h1, h2, h3, h4, h5, h6⟩ := hv
  cases u <;> simp only [accumulate, tm_in_int] <;>
    refine ⟨?_, ?_, ?_, ?_, ?_, ?_⟩ <;> first | assumption | exact in_int_wrap_int _

theorem accumulate_all_eq (ps : List (Int × unit_kw)) : ∀ v : tm, tm_in_int v →
    accumulate_all v ps =
      { tm_sec := wrap_int (v.tm_sec + unit_total unit_kw.secs ps)
        tm_min := wrap_int (v.tm_min + unit_total unit_kw.mins ps)
        tm_hour := wrap_int (v.tm_hour + unit_total unit_kw.hours ps)
        tm_mday := wrap_int (v.tm_mday +
          (7 * unit_total unit_kw.weeks ps + unit_total unit_kw.days ps))
        tm_mon := wrap_int (v.tm_mon + unit_total unit_kw.months ps)
        tm_year := wrap_int (v.tm_year + unit_total unit_kw.years ps)
        tm_gmtoff := v.tm_gmtoff } := by
  induction ps with
  | nil =>
    intro v hv
    obtain ⟨h1, h2, h3, h4, h5, h6⟩ := hv
    simp only [accumulate_all, unit_total, mul_zero, add_zero, wrap_int_of_in_int h1,
      wrap_int_of_in_int h2, wrap_int_of_in_int h3, wrap_int_of_in_int h4,
      wrap_int_of_in_int h5, wrap_int_of_in_int h6]
  | cons p ps ih =>
    intro v hv
    obtain ⟨n, u⟩ := p
    rw [accumulate_all, ih _ (tm_in_int_accumulate hv n u)]
    cases u <;>
      simp only [accumulate, unit_total, wrap_int_add_left, wrap_int_add_right, if_true,
        if_false, reduceCtorEq, zero_add, add_assoc, mul_add, mul_zero] <;>
      congr 2 <;> ring

/-- The whole of `parse_duration` on a run of well-formed pairs followed by
text at which the loop stops: the result is what one more round of the loop
gives on that text, the fields holding the sums of the pairs. -/
theorem parse_duration_pairs_then (ps : List (Int × unit_kw)) (hn : ∀ p ∈ ps, in_int p.1)
    (hfit : tm_in_int (duration_of ps)) (tail : List Char) (r : parse_result)
    (htail : ∀ (fuel : Nat) (last : Option (Int × Nat)),
      parse_duration_loop (fuel + 1) tail last ⟨operand_tag.OP_DATE, duration_of ps⟩ = some r) :
    parse_duration (duration_token ps ++ tail) operand_zero = r := by
  have hlen := length_duration_token ps
  have e : (duration_token ps ++ tail).length + 1 =
      ((duration_token ps).length - ps.length + tail.length + 1) + ps.length := by
    simp only [List.length_append]; omega
  have hz : tm_in_int tm_zero := by decide
  have hacc : accumulate_all tm_zero ps = duration_of ps := by
    obtain ⟨h1, h2, h3, h4, h5, h6⟩ := hfit
    simp only [duration_of] at h1 h2 h3 h4 h5 h6
    rw [accumulate_all_eq ps tm_zero hz]
    simp only [tm_zero, zero_add, duration_of, wrap_int_of_in_int h1, wrap_int_of_in_int h2,
      wrap_int_of_in_int h3, wrap_int_of_in_int h4, wrap_int_of_in_int h5,
      wrap_int_of_in_int h6]
  rw [parse_duration, e, parse_duration_loop_pairs ps hn]
  simp only [operand_zero, hacc, htail]

/-! ## Duration tokens -/

/-- C6: for every list of (n, unit) pairs with each n in the range of `int`,
in any order and with repeats, `parse_duration` on the concatenation of the
decimal n and unit keywords, starting from the zeroed operand, returns 0 with
tag Duration and fields: year = sum of the years values, month = sum of
months, day of month = 7 * (sum of weeks) + (sum of days), hour = sum of
hours, minute = sum of mins, second = sum of secs, whenever these six sums fit
a C `int`. -/
theorem parse_duration_token (ps : List (Int × unit_kw)) (hn : ∀ p ∈ ps, in_int p.1)
    (hfit : tm_in_int (duration_of ps)) :
    parse_duration (duration_token ps) operand_zero =
      parse_result.returned 0
        { tag := operand_tag.OP_DURATION,
          val :=
            { tm_year := unit_total unit_kw.years ps
              tm_mon := unit_total unit_kw.months ps
              tm_mday := 7 * unit_total unit_kw.weeks ps + unit_total unit_kw.days ps
              tm_hour := unit_total unit_kw.hours ps
              tm_min := unit_total unit_kw.mins ps
              tm_sec := unit_total unit_kw.secs ps
              tm_gmtoff := 0 } } := by
  have h := parse_duration_pairs_then ps hn hfit []
    (parse_result.returned 0 ⟨operand_tag.OP_DURATION, duration_of ps⟩)
    (fun fuel last => parse_duration_loop_end fuel [] (by simp) last _)
  rw [List.append_nil] at h
  rw [h]
  rfl

/-- Witness of C6: "2years3years" gives 5 years. -/
theorem parse_duration_token_witness :
    parse_duration "2years3years".toList operand_zero =
      parse_result.returned 0 ⟨operand_tag.OP_DURATION, ⟨0, 0, 0, 0, 0, 5, 0⟩⟩ :=
  parse_duration_token [(2, unit_kw.years), (3, unit_kw.years)] (by decide) (by decide)

/-- Counterexample to C7: "1daysab" and "1days5" each start with the pair
"1days" and go on with text that is not a pair, yet `parse_duration` returns -1
on both; the trailing text is not ignored. On "5" the value is scanned and no
unit keyword follows, so line 81 returns -1. On "ab" `sscanf` returns 0, which
does not end the loop (only a negative return does); `val` and `skip` keep the
values of the pair, no unit keyword is found after skipping one character, and
line 81 returns -1 again. The tag of `dst` is never set. -/
theorem parse_duration_trailing_text_fails :
    "1daysab".toList = duration_token [(1, unit_kw.days)] ++ "ab".toList ∧
    parse_duration "1daysab".toList operand_zero =
      parse_result.returned (-1) ⟨operand_tag.OP_DATE, ⟨0, 0, 0, 1, 0, 0, 0⟩⟩ ∧
    "1days5".toList = duration_token [(1, unit_kw.days)] ++ "5".toList ∧
    parse_duration "1days5".toList operand_zero =
      parse_result.returned (-1) ⟨operand_tag.OP_DATE, ⟨0, 0, 0, 1, 0, 0, 0⟩⟩ := by
  decide

/-- C7, amended: after a run of well-formed pairs whose sums fit a C `int`,
trailing text is not ignored. `parse_duration` returns 0, with the Duration
accumulated from the pairs, when what follows the pairs is empty or white
space only; it returns -1, the tag of the destination not being set, when what
follows is an integer that no unit keyword follows. -/
theorem parse_duration_trailing (ps : List (Int × unit_kw)) (hn : ∀ p ∈ ps, in_int p.1)
    (hfit : tm_in_int (duration_of ps)) :
    (∀ ws : List Char, all_space ws →
      parse_duration (duration_token ps ++ ws) operand_zero =
        parse_result.returned 0 ⟨operand_tag.OP_DURATION, duration_of ps⟩) ∧
    (∀ (n : Int) (rest : List Char), in_int n → no_digit_ahead rest → no_unit rest →
      parse_duration (duration_token ps ++ (decimal n ++ rest)) operand_zero =
        parse_result.returned (-1) ⟨operand_tag.OP_DATE, duration_of ps⟩) := by
  constructor
  · intro ws hws
    exact parse_duration_pairs_then ps hn hfit ws _
      (fun fuel last => parse_duration_loop_end fuel ws hws last _)
  · intro n rest hnn hd hu
    exact parse_duration_pairs_then ps hn hfit _ _
      (fun fuel last => parse_duration_loop_no_unit fuel n hnn rest hd hu last _)

/-- Witness of C7, amended: "1days " is the Duration of one day, and
"1days5x" is refused. -/
theorem parse_duration_trailing_witness :
    parse_duration "1days ".toList operand_zero =
      parse_result.returned 0 ⟨operand_tag.OP_DURATION, ⟨0, 0, 0, 1, 0, 0, 0⟩⟩ ∧
    parse_duration "1days5x".toList operand_zero =
      parse_result.returned (-1) ⟨operand_tag.OP_DATE, ⟨0, 0, 0, 1, 0, 0, 0⟩⟩ :=
  ⟨(parse_duration_trailing [(1, unit_kw.days)] (by decide) (by decide)).1 " ".toList
      (by decide),
   (parse_duration_trailing [(1, unit_kw.days)] (by decide) (by decide)).2 5 "x".toList
      (by decide) (by decide) (by decide)⟩

/-! ## Tokens without a pair -/

theorem parse_date_fail (today : tm) (src : List Char) (dst : operand)
    (h : (parse_date today src dst).1 ≠ 0) : parse_date today src dst = (-1, dst) := by
  unfold parse_date at h ⊢
  dsimp only at h ⊢
  split_ifs at h ⊢ <;> first | rfl | exact absurd rfl h

theorem parse_duration_space (ws : List Char) (hws : all_space ws) (dst : operand) :
    parse_duration ws dst =
      parse_result.returned 0 { dst with tag := operand_tag.OP_DURATION } := by
  rw [parse_duration, parse_duration_loop_end ws.length ws hws]

theorem parse_duration_integer (n : Int) (hn : in_int n) (rest : List Char)
    (hd : no_digit_ahead rest) (hu : no_unit rest) (dst : operand) :
    parse_duration (decimal n ++ rest) dst = parse_result.returned (-1) dst := by
  rw [parse_duration, parse_duration_loop_no_unit _ n hn rest hd hu]

/-- Counterexample to C8: no pair is consumed from the empty token, yet
`parse_duration` returns 0 on it (the first `sscanf` returns `EOF`, which ends
the loop), `parse_operand` accepts it as the Duration of six zeros, and the
program run on the arguments `""`, `+`, `""` prints that Duration and returns
0. -/
theorem parse_duration_empty_succeeds :
    parse_duration [] operand_zero =
      parse_result.returned 0 ⟨operand_tag.OP_DURATION, ⟨0, 0, 0, 0, 0, 0, 0⟩⟩ ∧
    parse_operand ⟨20, 13, 22, 14, 10, 123, 0⟩ [] operand_zero =
      parse_result.returned 0 ⟨operand_tag.OP_DURATION, ⟨0, 0, 0, 0, 0, 0, 0⟩⟩ ∧
    main 1700000000 0 ["timecalc".toList, [], "+".toList, []] =
      exit_result.returned 0
        "DURATION:\nyear: 0\nmont: 0\ndays: 0\nhour: 0\nmins: 0\nsecs: 0\n" := by
  decide

/-! ## Date tokens -/

theorem get_number_two (lo hi v : Nat) (hlo : lo ≤ v) (hhi : v ≤ hi) (hv : v < 100)
    (rest : List Char) :
    get_number lo hi 2 (two_digits v ++ rest) = some (v, rest) := by
  have h1 : v / 10 < 10 := by omega
  have h2 : v % 10 < 10 := by omega
  have d1 := isdigit_digitChar _ h1
  have d2 := isdigit_digitChar _ h2
  have v1 := digitChar_value _ h1
  have v2 := digitChar_value _ h2
  have c1 : v / 10 * 10 ≤ hi := by omega
  have e : v / 10 * 10 + v % 10 = v := by omega
  simp only [get_number, two_digits, List.cons_append, List.nil_append, List.dropWhile_cons,
    isspace_of_isdigit d1, Bool.false_eq_true, if_false, d1, d2, if_true, get_number_digits,
    Nat.zero_mul, Nat.zero_add, v1, v2, c1, Nat.zero_le, decide_True, Bool.and_self, e, hlo, hhi,
    and_self]

theorem get_number_four (v : Nat) (hv : v ≤ 9999) (rest : List Char) :
    get_number 0 9999 4 (four_digits v ++ rest) = some (v, rest) := by
  have h1 : v / 1000 < 10 := by omega
  have h2 : v / 100 % 10 < 10 := by omega
  have h3 : v / 10 % 10 < 10 := by omega
  have h4 : v % 10 < 10 := by omega
  have d1 := isdigit_digitChar _ h1
  have d2 := isdigit_digitChar _ h2
  have d3 := isdigit_digitChar _ h3
  have d4 := isdigit_digitChar _ h4
  have v1 := digitChar_value _ h1
  have v2 := digitChar_value _ h2
  have v3 := digitChar_value _ h3
  have v4 := digitChar_value _ h4
  have c1 : v / 1000 * 10 ≤ 9999 := by omega
  have c2 : (v / 1000 * 10 + v / 100 % 10) * 10 ≤ 9999 := by omega
  have c3 : ((v / 1000 * 10 + v / 100 % 10) * 10 + v / 10 % 10) * 10 ≤ 9999 := by omega
  have e : ((v / 1000 * 10 + v / 100 % 10) * 10 + v / 10 % 10) * 10 + v % 10 = v := by omega
  simp only [get_number, four_digits, List.cons_append, List.nil_append, List.dropWhile_cons,
    isspace_of_isdigit d1, Bool.false_eq_true, if_false, d1, d2, d3, d4, if_true,
    get_number_digits, Nat.zero_mul, Nat.zero_add, v1, v2, v3, v4, c1, c2, c3, Nat.zero_le,
    decide_True, Bool.and_self, e, hv, and_self]

theorem strptime_date_token (Y M D : Nat) (hY : Y ≤ 9999) (hM : 1 ≤ M ∧ M ≤ 12)
    (hD : 1 ≤ D ∧ D ≤ 31) (t : tm) :
    strptime (date_token Y M D) fmt_date t =
      (some [], { t with tm_year := (Y : Int) - 1900, tm_mon := (M : Int) - 1,
                         tm_mday := (D : Int) }) := by
  have e : two_digits D = two_digits D ++ [] := by simp
  have hm := get_number_two 1 12 M hM.1 hM.2 (by omega) ('-' :: (two_digits D ++ []))
  have hd := get_number_two 1 31 D hD.1 hD.2 (by omega) []
  rw [date_token, e]
  simp only [fmt_date, strptime, get_number_four Y hY, hm, hd, if_true]

theorem date_token_head (Y M D : Nat) (hY : Y ≤ 9999) :
    ∃ c rest, date_token Y M D = c :: rest ∧ isdigit c = true :=
  ⟨_, _, rfl, isdigit_digitChar _ (by omega)⟩

theorem strptime_zone_digit (c : Char) (rest : List Char) (hc : isdigit c = true) (t : tm) :
    strptime (c :: rest) fmt_zone t = (none, t) := by
  have hZ : c ≠ 'Z' := by rintro rfl; exact absurd hc (by decide)
  have hs := not_sign_of_isdigit hc
  have hp : c ≠ '+' := fun h => hs (Or.inr h)
  have hm : c ≠ '-' := fun h => hs (Or.inl h)
  simp only [fmt_zone, strptime, strptime_z, List.dropWhile_cons, isspace_of_isdigit hc,
    Bool.false_eq_true, if_false, hZ, hp, hm, or_self]

/-- C10: for every token that is exactly `YYYY-MM-DD` with a four-digit year
Y, a month M in 1..12 and a day D in 1..31, `parse_date` returns 0 with tag Date
and fields year = Y - 1900, month = M - 1, day of month = D, hour = minute =
second = 0, whatever the Today snapshot and the old destination are. -/
theorem parse_date_ymd (today : tm) (dst : operand) (Y M D : Nat) (hY : Y ≤ 9999)
    (hM : 1 ≤ M ∧ M ≤ 12) (hD : 1 ≤ D ∧ D ≤ 31) :
    parse_date today (date_token Y M D) dst =
      (0, { tag := operand_tag.OP_DATE,
            val := { tm_year := (Y : Int) - 1900, tm_mon := (M : Int) - 1, tm_mday := (D : Int),
                     tm_hour := 0, tm_min := 0, tm_sec := 0, tm_gmtoff := 0 } }) := by
  obtain ⟨c, rest, hcr, hc⟩ := date_token_head Y M D hY
  have hne : date_token Y M D ≠ "TODAY".toList := by
    rw [hcr]
    intro h
    have hT : c = 'T' := (List.cons.inj h).1
    rw [hT] at hc
    exact absurd hc (by decide)
  have hdate := strptime_date_token Y M D hY hM hD tm_zero
  have hzone := strptime_zone_digit c rest hc
  rw [← hcr] at hzone
  have htime : ∀ t : tm, strptime [] fmt_time t = (none, t) := fun t => rfl
  simp only [parse_date, hne, if_false, hdate, htime, hzone, reduceCtorEq, false_and]
  rfl

/-- Witness of C10: "2024-03-01" is the Date with year 124, month 2 and day 1,
the snapshot being some other day. -/
theorem parse_date_ymd_witness :
    parse_date ⟨20, 13, 22, 14, 10, 123, 0⟩ "2024-03-01".toList operand_zero =
      (0, ⟨operand_tag.OP_DATE, ⟨0, 0, 0, 1, 2, 124, 0⟩⟩) :=
  parse_date_ymd ⟨20, 13, 22, 14, 10, 123, 0⟩ operand_zero 2024 3 1 (by decide)
    (by decide) (by decide)

/-! ## The calendar model is the Gregorian calendar -/

set_option maxRecDepth 100000 in
theorem era_year_ends : ∀ y : Nat, y < 400 →
    era_year (era_year_start y) = y ∧ era_year (era_year_last y) = y := by
  decide

theorem era_year_step (x : Int) (h0 : 0 ≤ x) (h1 : x < 146096) :
    x - x / 1460 + x / 36524 - x / 146096 ≤
      (x + 1) - (x + 1) / 1460 + (x + 1) / 36524 - (x + 1) / 146096 := by
  by_cases h : x + 1 = 146096
  · have : x = 146095 := by omega
    subst this
    decide
  · omega

theorem era_year_mono (a b : Int) (h0 : 0 ≤ a) (hab : a ≤ b) (h1 : b ≤ 146096) :
    era_year a ≤ era_year b := by
  have key : ∀ n, a ≤ n → n ≤ 146096 →
      a - a / 1460 + a / 36524 - a / 146096 ≤ n - n / 1460 + n / 36524 - n / 146096 := by
    intro n hn
    refine Int.le_induction
      (P := fun n => n ≤ 146096 →
        a - a / 1460 + a / 36524 - a / 146096 ≤ n - n / 1460 + n / 36524 - n / 146096)
      (fun _ => le_refl _) ?_ n hn
    intro n hn ih h
    exact le_trans (ih (by omega)) (era_year_step n (by omega) (by omega))
  exact Int.ediv_le_ediv (by decide) (key b hab h1)

/-- The year that `era_year` finds is the one whose days contain `doe`. -/
theorem era_year_spec (doe : Int) (h0 : 0 ≤ doe) (h1 : doe ≤ 146096) :
    0 ≤ era_year doe ∧ era_year doe ≤ 399 ∧
      era_year_start (era_year doe) ≤ doe ∧ doe ≤ era_year_last (era_year doe) := by
  have hlo : 0 ≤ era_year doe := by
    have := era_year_mono 0 doe (le_refl _) h0 h1
    have e : era_year 0 = 0 := by decide
    omega
  have hhi : era_year doe ≤ 399 := by
    have := era_year_mono doe 146096 h0 h1 (le_refl _)
    have e : era_year 146096 = 399 := by decide
    omega
  refine ⟨hlo, hhi, ?_, ?_⟩
  · by_contra hc
    have hlt : doe < era_year_start (era_year doe) := not_le.1 hc
    by_cases hz : era_year doe = 0
    · rw [hz] at hlt
      have e : era_year_start 0 = 0 := by decide
      omega
    · have hn : (era_year doe - 1).toNat < 400 := by omega
      have hcast : (((era_year doe - 1).toNat : Nat) : Int) = era_year doe - 1 :=
        Int.toNat_of_nonneg (by omega)
      have hend := (era_year_ends _ hn).2
      rw [hcast] at hend
      have hlast : era_year_last (era_year doe - 1) = era_year_start (era_year doe) - 1 := by
        unfold era_year_last
        rw [if_neg (by omega)]
        simp
      have hb : era_year_start (era_year doe) - 1 ≤ 146096 := by
        unfold era_year_start; omega
      have := era_year_mono doe (era_year_start (era_year doe) - 1) h0 (by omega) hb
      rw [← hlast, hend] at this
      omega
  · by_contra hc
    have hlt : era_year_last (era_year doe) < doe := not_le.1 hc
    by_cases hz : era_year doe = 399
    · rw [hz] at hlt
      have e : era_year_last 399 = 146096 := by decide
      omega
    · have hn : (era_year doe + 1).toNat < 400 := by omega
      have hcast : (((era_year doe + 1).toNat : Nat) : Int) = era_year doe + 1 :=
        Int.toNat_of_nonneg (by omega)
      have hend := (era_year_ends _ hn).1
      rw [hcast] at hend
      have hlast : era_year_last (era_year doe) = era_year_start (era_year doe + 1) - 1 := by
        unfold era_year_last
        rw [if_neg hz]
      have hb : 0 ≤ era_year_start (era_year doe + 1) := by
        unfold era_year_start; omega
      have := era_year_mono (era_year_start (era_year doe + 1)) doe hb (by omega) h1
      rw [hend] at this
      omega

set_option maxHeartbeats 1000000 in
theorem civil_core (era yoe doy mp : Int) (hy0 : 0 ≤ yoe) (hy1 : yoe ≤ 399)
    (hd0 : 0 ≤ doy) (hd1 : doy ≤ 365)
    (hleap : doy = 365 → (yoe + 1) % 4 = 0 ∧ ((yoe + 1) % 100 ≠ 0 ∨ (yoe + 1) % 400 = 0))
    (hmp : mp = (5 * doy + 2) / 153) :
    days_from_civil
        (if (if mp < 10 then mp + 3 else mp - 9) ≤ 2 then yoe + era * 400 + 1
          else yoe + era * 400)
        (if mp < 10 then mp + 3 else mp - 9) (doy - (153 * mp + 2) / 5 + 1) =
      era * 146097 + (era_year_start yoe + doy) - 719468 ∧
    1 ≤ (if mp < 10 then mp + 3 else mp - 9) ∧ (if mp < 10 then mp + 3 else mp - 9) ≤ 12 ∧
    1 ≤ doy - (153 * mp + 2) / 5 + 1 ∧
    doy - (153 * mp + 2) / 5 + 1 ≤
      days_in_month
        (if (if mp < 10 then mp + 3 else mp - 9) ≤ 2 then yoe + era * 400 + 1
          else yoe + era * 400)
        (if mp < 10 then mp + 3 else mp - 9) := by
  have hm0 : 0 ≤ mp := by omega
  have hm1 : mp ≤ 11 := by omega
  interval_cases mp
  all_goals simp only [days_from_civil, days_in_month, is_leap, era_year_start]
  all_goals norm_num
  all_goals omega

theorem era_year_length (yoe doe : Int)
    (hs : era_year_start yoe ≤ doe) (hl : doe ≤ era_year_last yoe) :
    0 ≤ doe - era_year_start yoe ∧ doe - era_year_start yoe ≤ 365 ∧
    (doe - era_year_start yoe = 365 →
      (yoe + 1) % 4 = 0 ∧ ((yoe + 1) % 100 ≠ 0 ∨ (yoe + 1) % 400 = 0)) := by
  unfold era_year_last at hl
  unfold era_year_start at hs hl ⊢
  split_ifs at hl <;> omega

/-- The date that `civil_from_days` gives is a date of the Gregorian calendar
(a month from 1 to 12, a day from 1 to the length of the month), and it is the
date that lies the given number of days after 1970-01-01. -/
theorem civil_from_days_spec (z : Int) :
    days_from_civil (civil_from_days z).1 (civil_from_days z).2.1 (civil_from_days z).2.2 = z ∧
    1 ≤ (civil_from_days z).2.1 ∧ (civil_from_days z).2.1 ≤ 12 ∧
    1 ≤ (civil_from_days z).2.2 ∧
    (civil_from_days z).2.2 ≤ days_in_month (civil_from_days z).1 (civil_from_days z).2.1 := by
  have h0 : 0 ≤ z + 719468 - (z + 719468) / 146097 * 146097 := by omega
  have h1 : z + 719468 - (z + 719468) / 146097 * 146097 ≤ 146096 := by omega
  obtain ⟨hy0, hy1, hs, hl⟩ := era_year_spec _ h0 h1
  obtain ⟨hd0, hd1, hleap⟩ := era_year_length _ _ hs hl
  have core := civil_core ((z + 719468) / 146097) _ _ _ hy0 hy1 hd0 hd1 hleap rfl
  simp only [civil_from_days]
  refine ⟨?_, core.2⟩
  rw [core.1]
  omega

theorem days_from_civil_year_le (y m d z : Int) (hm0 : 1 ≤ m) (hm1 : m ≤ 12) (hd : 1 ≤ d)
    (hd1 : d ≤ 31)
    (h : days_from_civil y m d = z) (hz0 : 0 ≤ z) (hz1 : z ≤ 784352270736) :
    1900 ≤ y ∧ y ≤ 2147485547 := by
  simp only [days_from_civil, era_year_start] at h
  split_ifs at h <;> omega

theorem days_in_month_le (y m : Int) : days_in_month y m ≤ 31 := by
  unfold days_in_month
  split_ifs <;> decide

/-- For a clock reading from 0 up to the last second of the year
`INT_MAX + 1900`, `gmtime` succeeds; its date fields are the Gregorian date of
the day `t / 86400` and its time fields are the time of day `t % 86400`. -/
theorem gmtime_spec (t : Int) (h0 : 0 ≤ t) (h1 : t ≤ 67768036191676799) :
    ∃ g : tm, gmtime t = some g ∧
      days_from_civil (g.tm_year + 1900) (g.tm_mon + 1) g.tm_mday = t / 86400 ∧
      0 ≤ g.tm_mon ∧ g.tm_mon ≤ 11 ∧ 1 ≤ g.tm_mday ∧
      g.tm_mday ≤ days_in_month (g.tm_year + 1900) (g.tm_mon + 1) ∧
      g.tm_hour = t % 86400 / 3600 ∧ g.tm_min = t % 3600 / 60 ∧ g.tm_sec = t % 60 := by
  obtain ⟨hrt, hm0, hm1, hd0, hd1⟩ := civil_from_days_spec (t / 86400)
  have hd31 := le_trans hd1 (days_in_month_le _ _)
  obtain ⟨hy0, hy1⟩ := days_from_civil_year_le _ _ _ _ hm0 hm1 hd0 hd31 hrt (by omega)
    (by omega)
  have hin : in_int ((civil_from_days (t / 86400)).1 - 1900) := by
    unfold in_int INT_MIN INT_MAX
    omega
  have hg : gmtime t = some
      { tm_sec := t % 86400 % 60, tm_min := t % 86400 / 60 % 60, tm_hour := t % 86400 / 3600,
        tm_mday := (civil_from_days (t / 86400)).2.2,
        tm_mon := (civil_from_days (t / 86400)).2.1 - 1,
        tm_year := (civil_from_days (t / 86400)).1 - 1900, tm_gmtoff := 0 } := by
    rw [gmtime]
    simp only [hin, if_true]
  refine ⟨_, hg, ?_⟩
  simp only [sub_add_cancel]
  refine ⟨hrt, by omega, by omega, hd0, hd1, trivial, ?_, ?_⟩ <;> omega

/-- Counterexample to C9: with the clock at 1700000000 (2023-11-14 22:13:20
UTC), the snapshot holds the time of day as well, and the token "TODAY" is the
Date with hour 22, minute 13 and second 20, not zero. Besides, one second
after the last instant whose year fits `tm_year`, `gmtime` returns `NULL` and
line 33 dereferences it. -/
theorem today_keeps_time_of_day :
    init_today 1700000000 = Except.ok ⟨20, 13, 22, 14, 10, 123, 0⟩ ∧
    parse_operand ⟨20, 13, 22, 14, 10, 123, 0⟩ "TODAY".toList operand_zero =
      parse_result.returned 0 ⟨operand_tag.OP_DATE, ⟨20, 13, 22, 14, 10, 123, 0⟩⟩ ∧
    init_today 67768036191676800 = Except.error exit_result.undefined_behaviour :=
  ⟨rfl, by decide, rfl⟩

/-- C9, amended: for every clock reading t from 0 up to the last second that
`gmtime` can break down, `init_today` succeeds and `parse_operand ("TODAY")`
returns 0 with tag Date and the whole snapshot as value: the year, month and
day fields are the UTC calendar date of t, and the hour, minute and second
fields are the UTC time of day of t (they are zero only at midnight). -/
theorem today_snapshot (t : Int) (h0 : 0 ≤ t) (h1 : t ≤ 67768036191676799) :
    ∃ today : tm, init_today t = Except.ok today ∧
      (∀ dst : operand, parse_operand today "TODAY".toList dst =
        parse_result.returned 0 ⟨operand_tag.OP_DATE, today⟩) ∧
      days_from_civil (today.tm_year + 1900) (today.tm_mon + 1) today.tm_mday = t / 86400 ∧
      0 ≤ today.tm_mon ∧ today.tm_mon ≤ 11 ∧ 1 ≤ today.tm_mday ∧
      today.tm_mday ≤ days_in_month (today.tm_year + 1900) (today.tm_mon + 1) ∧
      today.tm_hour = t % 86400 / 3600 ∧ today.tm_min = t % 3600 / 60 ∧
      today.tm_sec = t % 60 := by
  obtain ⟨g, hg, hrest⟩ := gmtime_spec t h0 h1
  refine ⟨g, ?_, ?_, hrest⟩
  · have hneg : ¬ (t < 0) := by omega
    simp only [init_today, hneg, if_false, hg]
  · intro dst
    simp only [parse_operand, parse_date, if_true]

/-- Witness of C9, amended: the clock at 1700000000. -/
theorem today_snapshot_witness :
    ∃ today : tm, init_today 1700000000 = Except.ok today ∧
      (∀ dst : operand, parse_operand today "TODAY".toList dst =
        parse_result.returned 0 ⟨operand_tag.OP_DATE, today⟩) ∧
      days_from_civil (today.tm_year + 1900) (today.tm_mon + 1) today.tm_mday =
        1700000000 / 86400 ∧
      0 ≤ today.tm_mon ∧ today.tm_mon ≤ 11 ∧ 1 ≤ today.tm_mday ∧
      today.tm_mday ≤ days_in_month (today.tm_year + 1900) (today.tm_mon + 1) ∧
      today.tm_hour = 1700000000 % 86400 / 3600 ∧ today.tm_min = 1700000000 % 3600 / 60 ∧
      today.tm_sec = 1700000000 % 60 :=
  today_snapshot 1700000000 (by decide) (by decide)

/-! ## Time-of-day tokens -/

theorem get_number_year_two (v : Nat) (hv : v < 100) (c : Char) (hc : isdigit c = false)
    (rest : List Char) :
    get_number 0 9999 4 (two_digits v ++ (c :: rest)) = some (v, c :: rest) := by
  have h1 : v / 10 < 10 := by omega
  have h2 : v % 10 < 10 := by omega
  have d1 := isdigit_digitChar _ h1
  have d2 := isdigit_digitChar _ h2
  have v1 := digitChar_value _ h1
  have v2 := digitChar_value _ h2
  have c1 : v / 10 * 10 ≤ 9999 := by omega
  have e : v / 10 * 10 + v % 10 = v := by omega
  have hv2 : v ≤ 9999 := by omega
  simp only [get_number, two_digits, List.cons_append, List.nil_append, List.dropWhile_cons,
    isspace_of_isdigit d1, Bool.false_eq_true, if_false, d1, d2, hc, if_true, get_number_digits,
    Nat.zero_mul, Nat.zero_add, v1, v2, c1, Nat.zero_le, decide_True, Bool.and_self, e, hv2,
    and_self, Bool.false_and]

theorem strptime_date_time_token (H M S : Nat) (hH : H ≤ 23) (t : tm) :
    strptime (time_token H M S) fmt_date t = (none, { t with tm_year := (H : Int) - 1900 }) := by
  have h := get_number_year_two H (by omega) ':' (by decide)
    (two_digits M ++ (':' :: two_digits S))
  rw [time_token]
  simp only [fmt_date, strptime, h]
  rfl

theorem strptime_time_token (H M S : Nat) (hH : H ≤ 23) (hM : M ≤ 59) (hS : S ≤ 61) (t : tm) :
    strptime (time_token H M S) fmt_time t =
      (some [], { t with tm_hour := (H : Int), tm_min := (M : Int), tm_sec := (S : Int) }) := by
  have e : two_digits S = two_digits S ++ [] := by simp
  have hh := get_number_two 0 23 H (Nat.zero_le _) hH (by omega)
    (':' :: (two_digits M ++ (':' :: (two_digits S ++ []))))
  have hm := get_number_two 0 59 M (Nat.zero_le _) hM (by omega) (':' :: (two_digits S ++ []))
  have hs := get_number_two 0 61 S (Nat.zero_le _) hS (by omega) []
  rw [time_token, e]
  simp only [fmt_time, strptime, hh, hm, hs, if_true]

theorem time_token_ne_today (H M S : Nat) (hH : H ≤ 23) :
    time_token H M S ≠ "TODAY".toList := by
  intro h
  have hc : isdigit (Nat.digitChar (H / 10)) = true := isdigit_digitChar _ (by omega)
  have hT : Nat.digitChar (H / 10) = 'T' := (List.cons.inj h).1
  rw [hT] at hc
  exact absurd hc (by decide)

theorem strptime_z_pointer (rp : List Char) (t u : tm) :
    (strptime_z rp t).map Prod.fst = (strptime_z rp u).map Prod.fst := by
  unfold strptime_z
  split
  · rfl
  · dsimp only
    split_ifs <;> rfl

/-- The pointer that `strptime` returns does not depend on the struct it
writes to. -/
theorem strptime_pointer (fmt : List fmt_item) : ∀ (rp : List Char) (t u : tm),
    (strptime rp fmt t).1 = (strptime rp fmt u).1 := by
  induction fmt with
  | nil => intro rp t u; rfl
  | cons it fmt ih =>
    intro rp t u
    cases it with
    | lit ch =>
      cases rp with
      | nil => rfl
      | cons c rp =>
        simp only [strptime]
        split_ifs
        · exact ih _ _ _
        · rfl
    | z =>
      have h := strptime_z_pointer rp t u
      simp only [strptime]
      cases h1 : strptime_z rp t with
      | none =>
        cases h2 : strptime_z rp u with
        | none => rfl
        | some r => rw [h1, h2] at h; exact absurd h (by simp)
      | some r1 =>
        cases h2 : strptime_z rp u with
        | none => rw [h1, h2] at h; exact absurd h (by simp)
        | some r2 =>
          rw [h1, h2] at h
          have e : r1.1 = r2.1 := by simpa using h
          obtain ⟨p1, t1⟩ := r1
          obtain ⟨p2, t2⟩ := r2
          simp only at e
          subst e
          exact ih _ _ _
    | _ =>
      simp only [strptime]
      cases get_number _ _ _ rp with
      | none => rfl
      | some r => exact ih _ _ _

/-- C11: a token that is a bare `HH:MM:SS` time of day makes `parse_date`
return 0 with tag Date; the year, month and day of month are those of the
Today snapshot, and hour, minute and second are the parsed HH, MM and SS, not
the time fields of the snapshot. When the token is not "TODAY" and neither the
date scan nor the time scan matches, `parse_date` returns -1 and leaves the
destination as it was. -/
theorem parse_date_hms (today : tm) (dst : operand) :
    (∀ H M S : Nat, H ≤ 23 → M ≤ 59 → S ≤ 61 →
      parse_date today (time_token H M S) dst =
        (0, { tag := operand_tag.OP_DATE,
              val := { tm_year := today.tm_year, tm_mon := today.tm_mon,
                       tm_mday := today.tm_mday, tm_hour := (H : Int), tm_min := (M : Int),
                       tm_sec := (S : Int), tm_gmtoff := 0 } })) ∧
    (∀ src : List Char, src ≠ "TODAY".toList →
      (strptime src fmt_date tm_zero).1 = none → (strptime src fmt_time tm_zero).1 = none →
      parse_date today src dst = (-1, dst)) := by
  constructor
  · intro H M S hH hM hS
    have hne := time_token_ne_today H M S hH
    have hdate := strptime_date_time_token H M S hH tm_zero
    have htime := strptime_time_token H M S hH hM hS
    have hzone : ∀ t : tm, strptime [] fmt_zone t = (none, t) := fun t => rfl
    simp only [parse_date, hne, if_false, hdate, htime, hzone, if_true]
    rfl
  · intro src hne hd ht
    have ht2 : ∀ t : tm, (strptime src fmt_time t).1 = none := fun t =>
      (strptime_pointer fmt_time src t tm_zero).trans ht
    simp only [parse_date, hne, if_false, hd, ht2, and_self, if_true]

/-- Witness of C11: "12:34:56" on the snapshot of 2023-11-14 22:13:20, and the
token "noon", which neither scan matches. -/
theorem parse_date_hms_witness :
    parse_date ⟨20, 13, 22, 14, 10, 123, 0⟩ "12:34:56".toList operand_zero =
      (0, ⟨operand_tag.OP_DATE, ⟨56, 34, 12, 14, 10, 123, 0⟩⟩) ∧
    parse_date ⟨20, 13, 22, 14, 10, 123, 0⟩ "noon".toList operand_zero = (-1, operand_zero) :=
  ⟨(parse_date_hms ⟨20, 13, 22, 14, 10, 123, 0⟩ operand_zero).1 12 34 56 (by decide)
      (by decide) (by decide),
   (parse_date_hms ⟨20, 13, 22, 14, 10, 123, 0⟩ operand_zero).2 "noon".toList (by decide)
      (by decide) (by decide)⟩

/-! ## The operator token -/

/-- C12: `parse_operator` returns 0 and stores Add if and only if the token is
exactly "+", returns 0 and stores Subtract if and only if it is exactly "-",
and for every other token (the empty token, "++", " +", "+ " among them) it
returns -1 and leaves the destination operator as it was. -/
theorem parse_operator_exact (src : List Char) (dst : Option operator) :
    ((parse_operator src dst = (0, some operator.OP_ADD)) ↔ src = "+".toList) ∧
    ((parse_operator src dst = (0, some operator.OP_SUB)) ↔ src = "-".toList) ∧
    (src ≠ "+".toList → src ≠ "-".toList → parse_operator src dst = (-1, dst)) ∧
    parse_operator [] dst = (-1, dst) ∧ parse_operator "++".toList dst = (-1, dst) ∧
    parse_operator " +".toList dst = (-1, dst) ∧ parse_operator "+ ".toList dst = (-1, dst) := by
  refine ⟨?_, ?_, ?_, rfl, rfl, rfl, rfl⟩
  · unfold parse_operator
    constructor
    · intro h
      split_ifs at h with h1 h2
      · exact h1
      · exact absurd (congrArg Prod.snd h) (by simp)
      · exact absurd (congrArg Prod.fst h) (by simp)
    · intro h
      rw [if_pos h]
  · unfold parse_operator
    constructor
    · intro h
      split_ifs at h with h1 h2
      · exact absurd (congrArg Prod.snd h) (by simp)
      · exact h2
      · exact absurd (congrArg Prod.fst h) (by simp)
    · intro h
      have h1 : ¬ (src = "+".toList) := by rw [h]; decide
      rw [if_neg h1, if_pos h]
  · intro h1 h2
    unfold parse_operator
    rw [if_neg h1, if_neg h2]

/-- Witness of C12: the token "+-" is refused and the destination keeps its
old value. -/
theorem parse_operator_exact_witness :
    parse_operator "+-".toList (some operator.OP_SUB) = (-1, some operator.OP_SUB) :=
  (parse_operator_exact "+-".toList (some operator.OP_SUB)).2.2.1 (by decide) (by decide)

/-! ## Algebra of the arithmetic switch -/

theorem wrap_int_add_sub (a b : Int) (h : in_int a) : wrap_int (wrap_int (a + b) - b) = a := by
  unfold in_int INT_MIN INT_MAX at h
  unfold wrap_int
  omega

theorem sub_add_fields (l r : tm) (h : tm_in_int l) : sub_fields (add_fields l r) r = l := by
  obtain ⟨h1, h2, h3, h4, h5, h6⟩ := h
  simp only [sub_fields, add_fields, wrap_int_add_sub _ _ h1, wrap_int_add_sub _ _ h2,
    wrap_int_add_sub _ _ h3, wrap_int_add_sub _ _ h4, wrap_int_add_sub _ _ h5,
    wrap_int_add_sub _ _ h6]

/-- C13: for every Date d (its fields being C `int`s) and every Duration u,
combining d with u by Add gives a Date, and combining that Date with the same
u by Subtract gives d back, field for field; nothing is normalised in
between. -/
theorem add_then_sub (d u : operand) (hd : d.tag = operand_tag.OP_DATE)
    (hu : u.tag = operand_tag.OP_DURATION) (hin : tm_in_int d.val) :
    ∃ r : operand, combine d operator.OP_ADD u = Except.ok r ∧
      r.tag = operand_tag.OP_DATE ∧ combine r operator.OP_SUB u = Except.ok d := by
  refine ⟨{ d with val := add_fields d.val u.val }, ?_, hd, ?_⟩
  · simp only [combine, hd, hu]
  · simp only [combine, hd, hu, sub_add_fields _ _ hin]
    rw [← hd]

/-- Witness of C13: 2024-01-31 plus and minus the Duration of one month and
40 days. -/
theorem add_then_sub_witness :
    ∃ r : operand,
      combine ⟨operand_tag.OP_DATE, ⟨0, 0, 0, 31, 0, 124, 0⟩⟩ operator.OP_ADD
          ⟨operand_tag.OP_DURATION, ⟨0, 0, 0, 40, 1, 0, 0⟩⟩ = Except.ok r ∧
      r.tag = operand_tag.OP_DATE ∧
      combine r operator.OP_SUB ⟨operand_tag.OP_DURATION, ⟨0, 0, 0, 40, 1, 0, 0⟩⟩ =
        Except.ok ⟨operand_tag.OP_DATE, ⟨0, 0, 0, 31, 0, 124, 0⟩⟩ :=
  add_then_sub ⟨operand_tag.OP_DATE, ⟨0, 0, 0, 31, 0, 124, 0⟩⟩
    ⟨operand_tag.OP_DURATION, ⟨0, 0, 0, 40, 1, 0, 0⟩⟩ rfl rfl (by decide)

/-- C14: for every pair of Dates a and b whose field differences fit a C
`int` in both orders, a - b and b - a are Durations, and each of the six fields
of a - b is the negation of the same field of b - a. -/
theorem date_sub_antisymmetric (a b : operand) (ha : a.tag = operand_tag.OP_DATE)
    (hb : b.tag = operand_tag.OP_DATE) (hab : fits_sub a.val b.val)
    (hba : fits_sub b.val a.val) :
    ∃ x y : operand, combine a operator.OP_SUB b = Except.ok x ∧
      combine b operator.OP_SUB a = Except.ok y ∧
      x.tag = operand_tag.OP_DURATION ∧ y.tag = operand_tag.OP_DURATION ∧
      x.val.tm_year = -y.val.tm_year ∧ x.val.tm_mon = -y.val.tm_mon ∧
      x.val.tm_mday = -y.val.tm_mday ∧ x.val.tm_hour = -y.val.tm_hour ∧
      x.val.tm_min = -y.val.tm_min ∧ x.val.tm_sec = -y.val.tm_sec := by
  refine ⟨⟨operand_tag.OP_DURATION, sub_fields a.val b.val⟩,
    ⟨operand_tag.OP_DURATION, sub_fields b.val a.val⟩, ?_, ?_, rfl, rfl, ?_⟩
  · simp only [combine, ha, hb]
  · simp only [combine, ha, hb]
  · rw [sub_fields_exact hab, sub_fields_exact hba]
    simp only [neg_sub, and_self]

/-- Witness of C14: 2024-03-01 and 2023-11-14 22:13:20. -/
theorem date_sub_antisymmetric_witness :
    ∃ x y : operand,
      combine ⟨operand_tag.OP_DATE, ⟨0, 0, 0, 1, 2, 124, 0⟩⟩ operator.OP_SUB
          ⟨operand_tag.OP_DATE, ⟨20, 13, 22, 14, 10, 123, 0⟩⟩ = Except.ok x ∧
      combine ⟨operand_tag.OP_DATE, ⟨20, 13, 22, 14, 10, 123, 0⟩⟩ operator.OP_SUB
          ⟨operand_tag.OP_DATE, ⟨0, 0, 0, 1, 2, 124, 0⟩⟩ = Except.ok y ∧
      x.tag = operand_tag.OP_DURATION ∧ y.tag = operand_tag.OP_DURATION ∧
      x.val.tm_year = -y.val.tm_year ∧ x.val.tm_mon = -y.val.tm_mon ∧
      x.val.tm_mday = -y.val.tm_mday ∧ x.val.tm_hour = -y.val.tm_hour ∧
      x.val.tm_min = -y.val.tm_min ∧ x.val.tm_sec = -y.val.tm_sec :=
  date_sub_antisymmetric ⟨operand_tag.OP_DATE, ⟨0, 0, 0, 1, 2, 124, 0⟩⟩
    ⟨operand_tag.OP_DATE, ⟨20, 13, 22, 14, 10, 123, 0⟩⟩ rfl rfl (by decide) (by decide)

/-! ## Concatenation of Duration tokens -/

theorem duration_token_append (pa pb : List (Int × unit_kw)) :
    duration_token (pa ++ pb) = duration_token pa ++ duration_token pb := by
  induction pa with
  | nil => rfl
  | cons p pa ih => simp [duration_token, ih]

theorem unit_total_append (u : unit_kw) (pa pb : List (Int × unit_kw)) :
    unit_total u (pa ++ pb) = unit_total u pa + unit_total u pb := by
  induction pa with
  | nil => simp [unit_total]
  | cons p pa ih => simp [unit_total, ih, add_assoc]

/-- On a run of well-formed pairs alone, `parse_duration` returns 0 with the
fields that the updates of the pairs leave. -/
theorem parse_duration_token_acc (ps : List (Int × unit_kw)) (hn : ∀ p ∈ ps, in_int p.1) :
    parse_duration (duration_token ps) operand_zero =
      parse_result.returned 0 ⟨operand_tag.OP_DURATION, accumulate_all tm_zero ps⟩ := by
  have hlen := length_duration_token ps
  have e : (duration_token ps).length + 1 =
      ((duration_token ps).length - ps.length + 1) + ps.length := by omega
  have h := parse_duration_loop_pairs ps hn ((duration_token ps).length - ps.length + 1) []
    none operand_zero
  rw [List.append_nil] at h
  rw [parse_duration, e, h, parse_duration_loop_end _ [] (by simp)]
  rfl

theorem add_fields_accumulate_all (pa pb : List (Int × unit_kw)) :
    add_fields (accumulate_all tm_zero pa) (accumulate_all tm_zero pb) =
      accumulate_all tm_zero (pa ++ pb) := by
  have hz : tm_in_int tm_zero := by decide
  rw [accumulate_all_eq pa _ hz, accumulate_all_eq pb _ hz, accumulate_all_eq (pa ++ pb) _ hz]
  simp only [add_fields, tm_zero, zero_add, unit_total_append, wrap_int_add_left,
    wrap_int_add_right]
  congr 2
  ring

theorem accumulate_all_comm (pa pb : List (Int × unit_kw)) :
    accumulate_all tm_zero (pa ++ pb) = accumulate_all tm_zero (pb ++ pa) := by
  have hz : tm_in_int tm_zero := by decide
  rw [accumulate_all_eq (pa ++ pb) _ hz, accumulate_all_eq (pb ++ pa) _ hz]
  simp only [unit_total_append, add_comm]

/-- C20: for every two tokens a and b that consist of `<signed-int><unit>`
pairs only (values in the range of `int`), `parse_duration` on a followed by b,
from the zeroed operand, returns 0, and its result is the operand that
combining `parse_duration (a)` and `parse_duration (b)` with Add gives; the
order of a and b does not matter. -/
theorem parse_duration_concat (pa pb : List (Int × unit_kw)) (ha : ∀ p ∈ pa, in_int p.1)
    (hb : ∀ p ∈ pb, in_int p.1) :
    ∃ ra rb r : operand,
      parse_duration (duration_token pa) operand_zero = parse_result.returned 0 ra ∧
      parse_duration (duration_token pb) operand_zero = parse_result.returned 0 rb ∧
      parse_duration (duration_token pa ++ duration_token pb) operand_zero =
        parse_result.returned 0 r ∧
      combine ra operator.OP_ADD rb = Except.ok r ∧
      parse_duration (duration_token pb ++ duration_token pa) operand_zero =
        parse_result.returned 0 r := by
  have hab : ∀ p ∈ pa ++ pb, in_int p.1 := by
    intro p hp
    rcases List.mem_append.1 hp with h | h
    · exact ha p h
    · exact hb p h
  have hba : ∀ p ∈ pb ++ pa, in_int p.1 := by
    intro p hp
    rcases List.mem_append.1 hp with h | h
    · exact hb p h
    · exact ha p h
  refine ⟨_, _, ⟨operand_tag.OP_DURATION, accumulate_all tm_zero (pa ++ pb)⟩,
    parse_duration_token_acc pa ha, parse_duration_token_acc pb hb, ?_, ?_, ?_⟩
  · rw [← duration_token_append]
    exact parse_duration_token_acc (pa ++ pb) hab
  · simp only [combine, add_fields_accumulate_all]
  · rw [← duration_token_append, accumulate_all_comm]
    exact parse_duration_token_acc (pb ++ pa) hba

/-- Witness of C20: "1weeks" followed by "2days" is "9days". -/
theorem parse_duration_concat_witness :
    (∃ ra rb r : operand,
      parse_duration "1weeks".toList operand_zero = parse_result.returned 0 ra ∧
      parse_duration "2days".toList operand_zero = parse_result.returned 0 rb ∧
      parse_duration ("1weeks".toList ++ "2days".toList) operand_zero =
        parse_result.returned 0 r ∧
      combine ra operator.OP_ADD rb = Except.ok r ∧
      parse_duration ("2days".toList ++ "1weeks".toList) operand_zero =
        parse_result.returned 0 r) ∧
    parse_duration "1weeks2days".toList operand_zero =
      parse_duration "9days".toList operand_zero :=
  ⟨parse_duration_concat [(1, unit_kw.weeks)] [(2, unit_kw.days)] (by decide) (by decide),
   by decide⟩

/-! ## Runs of `main` -/

theorem init_today_ok (clock : Int) (h0 : 0 ≤ clock) (h1 : clock ≤ 67768036191676799) :
    ∃ today : tm, init_today clock = Except.ok today := by
  obtain ⟨g, hg, _⟩ := gmtime_spec clock h0 h1
  have hneg : ¬ (clock < 0) := by omega
  exact ⟨g, by simp only [init_today, hneg, if_false, hg]⟩

/-- A token `YYYY-MM-DD` is parsed as the Date of its year, month and day at
00:00:00. -/
theorem parse_date_date_token (today : tm) (dst : operand) (Y M D : Nat) (hY : Y ≤ 9999)
    (hM : 1 ≤ M ∧ M ≤ 12) (hD : 1 ≤ D ∧ D ≤ 31) :
    parse_date today (date_token Y M D) dst =
      (0, ⟨operand_tag.OP_DATE, ⟨0, 0, 0, (D : Int), (M : Int) - 1, (Y : Int) - 1900, 0⟩⟩) := by
  obtain ⟨c, rest, hcr, hc⟩ := date_token_head Y M D hY
  have hne : date_token Y M D ≠ "TODAY".toList := by
    rw [hcr]
    intro h
    have hT : c = 'T' := (List.cons.inj h).1
    rw [hT] at hc
    exact absurd hc (by decide)
  have hdate := strptime_date_token Y M D hY hM hD tm_zero
  have hzone := strptime_zone_digit c rest hc
  rw [← hcr] at hzone
  have htime : ∀ t : tm, strptime [] fmt_time t = (none, t) := fun t => rfl
  simp only [parse_date, hne, if_false, hdate, htime, hzone, reduceCtorEq, false_and]
  rfl

theorem parse_operand_date_token (today : tm) (dst : operand) (Y M D : Nat) (hY : Y ≤ 9999)
    (hM : 1 ≤ M ∧ M ≤ 12) (hD : 1 ≤ D ∧ D ≤ 31) :
    parse_operand today (date_token Y M D) dst =
      parse_result.returned 0
        ⟨operand_tag.OP_DATE, ⟨0, 0, 0, (D : Int), (M : Int) - 1, (Y : Int) - 1900, 0⟩⟩ := by
  simp only [parse_operand, parse_date_date_token today dst Y M D hY hM hD, if_true]

/-- C15: with the clock readable, for every two tokens `Y1-M1-D1` and
`Y2-M2-D2` (four-digit years, months in 1..12, days in 1..31), `main` with the
arguments (a, "-", b) returns 0 and prints the Duration with year = Y1 - Y2,
month = M1 - M2, days = D1 - D2 and hour = mins = secs = 0, not normalised. -/
theorem main_date_minus_date (clock utc_offset : Int) (h0 : 0 ≤ clock)
    (h1 : clock ≤ 67768036191676799) (program : List Char) (Y1 M1 D1 Y2 M2 D2 : Nat)
    (hY1 : Y1 ≤ 9999) (hM1 : 1 ≤ M1 ∧ M1 ≤ 12) (hD1 : 1 ≤ D1 ∧ D1 ≤ 31)
    (hY2 : Y2 ≤ 9999) (hM2 : 1 ≤ M2 ∧ M2 ≤ 12) (hD2 : 1 ≤ D2 ∧ D2 ≤ 31) :
    main clock utc_offset [program, date_token Y1 M1 D1, "-".toList, date_token Y2 M2 D2] =
      exit_result.returned 0
        ("DURATION:\n" ++
         "year: " ++ fmt_d ((Y1 : Int) - Y2) ++ "\n" ++
         "mont: " ++ fmt_d ((M1 : Int) - M2) ++ "\n" ++
         "days: " ++ fmt_d ((D1 : Int) - D2) ++ "\n" ++
         "hour: " ++ fmt_d 0 ++ "\n" ++
         "mins: " ++ fmt_d 0 ++ "\n" ++
         "secs: " ++ fmt_d 0 ++ "\n") := by
  obtain ⟨today, ht⟩ := init_today_ok clock h0 h1
  have hl := parse_operand_date_token today operand_zero Y1 M1 D1 hY1 hM1 hD1
  have hr := parse_operand_date_token today operand_zero Y2 M2 D2 hY2 hM2 hD2
  have hop : parse_operator "-".toList none = (0, some operator.OP_SUB) := rfl
  have hfit : fits_sub ⟨0, 0, 0, (D1 : Int), (M1 : Int) - 1, (Y1 : Int) - 1900, 0⟩
      ⟨0, 0, 0, (D2 : Int), (M2 : Int) - 1, (Y2 : Int) - 1900, 0⟩ := by
    simp only [fits_sub, in_int, INT_MIN, INT_MAX]
    omega
  have e1 : (Y1 : Int) - 1900 - ((Y2 : Int) - 1900) = (Y1 : Int) - Y2 := by ring
  have e2 : (M1 : Int) - 1 - ((M2 : Int) - 1) = (M1 : Int) - M2 := by ring
  simp only [main, ht, shift_args, List.length_cons, List.length_nil, main_tokens, hl, hr, hop,
    main_combine, combine, sub_fields_exact hfit, render, e1, e2, sub_self]
  rfl

/-- Witness of C15: "2024-03-01" - "2024-01-01" prints year 0, month 2 and
days 0. -/
theorem main_date_minus_date_witness :
    main 1700000000 0
        ["timecalc".toList, "2024-03-01".toList, "-".toList, "2024-01-01".toList] =
      exit_result.returned 0
        "DURATION:\nyear: 0\nmont: 2\ndays: 0\nhour: 0\nmins: 0\nsecs: 0\n" :=
  main_date_minus_date 1700000000 0 (by decide) (by decide) "timecalc".toList 2024 3 1 2024 1 1
    (by decide) (by decide) (by decide) (by decide) (by decide) (by decide)

/-! ## A Duration token is not a Date -/

theorem parse_date_neither (today : tm) (src : List Char) (dst : operand)
    (hne : src ≠ "TODAY".toList) (hd : (strptime src fmt_date tm_zero).1 = none)
    (ht : (strptime src fmt_time tm_zero).1 = none) :
    parse_date today src dst = (-1, dst) := by
  have ht2 : ∀ t : tm, (strptime src fmt_time t).1 = none := fun t =>
    (strptime_pointer fmt_time src t tm_zero).trans ht
  simp only [parse_date, hne, if_false, hd, ht2, and_self, if_true]

/-- What is left after the digit loop of `get_number` is a tail of the text
it started on, reached by dropping digits only. -/
theorem get_number_digits_rest (hi : Nat) : ∀ (n val : Nat) (rp : List Char),
    ∃ l : List Char, rp = l ++ (get_number_digits hi n val rp).2 ∧
      ∀ c ∈ l, isdigit c = true := by
  intro n
  induction n with
  | zero => intro val rp; exact ⟨[], rfl, by simp⟩
  | succ n ih =>
    intro val rp
    cases rp with
    | nil => exact ⟨[], rfl, by simp⟩
    | cons c rp =>
      rw [get_number_digits]
      split_ifs with h
      · obtain ⟨l, hl, hdl⟩ := ih (val * 10 + (c.toNat - 48)) rp
        have hc : isdigit c = true := by
          simp only [Bool.and_eq_true] at h
          exact h.1
        refine ⟨c :: l, by rw [List.cons_append, ← hl], ?_⟩
        intro x hx
        rcases List.mem_cons.1 hx with hx | hx
        · rw [hx]; exact hc
        · exact hdl x hx
      · exact ⟨[], rfl, by simp⟩

theorem digits_then_d_head : ∀ (l s ds tl : List Char), l ++ s = ds ++ ('d' :: tl) →
    (∀ c ∈ l, isdigit c = true) → (∀ c ∈ ds, isdigit c = true) →
    ∃ c rest, s = c :: rest ∧ (isdigit c = true ∨ c = 'd') := by
  intro l
  induction l with
  | nil =>
    intro s ds tl h _ hds
    rw [List.nil_append] at h
    cases ds with
    | nil => exact ⟨'d', tl, h, Or.inr rfl⟩
    | cons c ds => exact ⟨c, ds ++ ('d' :: tl), h, Or.inl (hds c (by simp))⟩
  | cons x l ih =>
    intro s ds tl h hl hds
    cases ds with
    | nil =>
      have hx : x = 'd' := (List.cons.inj h).1
      have := hl x (by simp)
      rw [hx] at this
      exact absurd this (by decide)
    | cons c ds =>
      have h2 : l ++ s = ds ++ ('d' :: tl) := (List.cons.inj h).2
      exact ih s ds tl h2 (fun y hy => hl y (by simp [hy])) (fun y hy => hds y (by simp [hy]))

/-- After a number scanned from digits that a `d` follows, the next character
is a digit or the `d`. -/
theorem get_number_then_d (lo hi n : Nat) (ds tl : List Char)
    (hds : ∀ c ∈ ds, isdigit c = true) (r : Nat × List Char)
    (h : get_number lo hi n (ds ++ ('d' :: tl)) = some r) :
    ∃ c rest, r.2 = c :: rest ∧ (isdigit c = true ∨ c = 'd') := by
  cases ds with
  | nil =>
    have hd : isspace 'd' = false := by decide
    have hd2 : isdigit 'd' = false := by decide
    simp [get_number, hd, hd2] at h
  | cons c ds =>
    have hc : isdigit c = true := hds c (by simp)
    simp only [get_number, List.cons_append, List.dropWhile_cons, isspace_of_isdigit hc,
      Bool.false_eq_true, if_false, hc, if_true] at h
    split_ifs at h
    have hr := Option.some.inj h
    obtain ⟨l, hl, hdl⟩ := get_number_digits_rest hi n 0 (c :: (ds ++ ('d' :: tl)))
    rw [hr] at hl
    exact digits_then_d_head l r.2 (c :: ds) tl (by rw [← hl]; rfl) hdl hds

theorem strptime_num_lit_fails (it : fmt_item) (hit : it ≠ fmt_item.z ∧ ∀ c, it ≠ fmt_item.lit c)
    (ch : Char) (hch : isdigit ch = false ∧ ch ≠ 'd') (fmt : List fmt_item)
    (ds tl : List Char) (hds : ∀ c ∈ ds, isdigit c = true) (t : tm) :
    (strptime (ds ++ ('d' :: tl)) (it :: fmt_item.lit ch :: fmt) t).1 = none := by
  have key : ∀ (lo hi n : Nat) (f : Nat → tm),
      (match get_number lo hi n (ds ++ ('d' :: tl)) with
        | some (v, rp2) => strptime rp2 (fmt_item.lit ch :: fmt) (f v)
        | none => (none, t)).1 = none := by
    intro lo hi n f
    cases h : get_number lo hi n (ds ++ ('d' :: tl)) with
    | none => rfl
    | some r =>
      obtain ⟨c, rest, hr, hc⟩ := get_number_then_d lo hi n ds tl hds r h
      obtain ⟨v, rp2⟩ := r
      simp only at hr
      subst hr
      have hne : c ≠ ch := by
        rintro rfl
        rcases hc with hc | hc
        · rw [hch.1] at hc; exact absurd hc (by decide)
        · exact hch.2 hc
      simp only [strptime, hne, if_false]
  cases it with
  | z => exact absurd rfl hit.1
  | lit c => exact absurd rfl (hit.2 c)
  | Y => exact key 0 9999 4 _
  | m => exact key 1 12 2 _
  | d => exact key 1 31 2 _
  | H => exact key 0 23 2 _
  | M => exact key 0 59 2 _
  | S => exact key 0 61 2 _

theorem strptime_minus_fails (it : fmt_item) (hit : it ≠ fmt_item.z ∧ ∀ c, it ≠ fmt_item.lit c)
    (fmt : List fmt_item) (tl : List Char) (t : tm) :
    (strptime ('-' :: tl) (it :: fmt) t).1 = none := by
  have hs : isspace '-' = false := by decide
  have hd : isdigit '-' = false := by decide
  have key : ∀ lo hi n : Nat, get_number lo hi n ('-' :: tl) = none := by
    intro lo hi n
    simp [get_number, hs, hd]
  cases it with
  | z => exact absurd rfl hit.1
  | lit c => exact absurd rfl (hit.2 c)
  | _ => simp only [strptime, key]

/-- The token of a number of days is no Date: `parse_date` returns -1 on it. -/
theorem parse_date_days (today : tm) (n : Int) (dst : operand) :
    parse_date today (decimal n ++ "days".toList) dst = (-1, dst) := by
  obtain ⟨hne, hd, _⟩ := toDigits_spec n.natAbs
  have hY : fmt_item.Y ≠ fmt_item.z ∧ ∀ c, fmt_item.Y ≠ fmt_item.lit c := by
    constructor <;> intros <;> simp
  have hH : fmt_item.H ≠ fmt_item.z ∧ ∀ c, fmt_item.H ≠ fmt_item.lit c := by
    constructor <;> intros <;> simp
  rw [decimal_eq]
  by_cases hneg : n < 0
  · simp only [if_pos hneg, List.cons_append]
    refine parse_date_neither today _ dst ?_ ?_ ?_
    · intro h
      exact absurd (List.cons.inj h).1 (by decide)
    · exact strptime_minus_fails _ hY _ _ _
    · exact strptime_minus_fails _ hH _ _ _
  · simp only [if_neg hneg]
    refine parse_date_neither today _ dst ?_ ?_ ?_
    · obtain ⟨c, l, hcl⟩ := List.exists_cons_of_ne_nil hne
      have hc : isdigit c = true := hd c (by simp [hcl])
      rw [hcl]
      intro h
      have hT : c = 'T' := (List.cons.inj h).1
      rw [hT] at hc
      exact absurd hc (by decide)
    · exact strptime_num_lit_fails _ hY '-' (by decide) _ _ "ays".toList hd _
    · exact strptime_num_lit_fails _ hH ':' (by decide) _ _ "ays".toList hd _

theorem parse_operand_days (today : tm) (n : Int) (hn : in_int n) :
    parse_operand today (decimal n ++ "days".toList) operand_zero =
      parse_result.returned 0 ⟨operand_tag.OP_DURATION, ⟨0, 0, 0, n, 0, 0, 0⟩⟩ := by
  have htok : decimal n ++ "days".toList = duration_token [(n, unit_kw.days)] := by
    simp [duration_token, unit_kw.keyword]
  have hdur := parse_duration_token_acc [(n, unit_kw.days)] (by simpa using hn)
  rw [← htok] at hdur
  have h1 : ¬ ((-1 : Int) = 0) := by decide
  simp only [parse_operand, parse_date_days, h1, if_false, hdur, if_true]
  simp only [accumulate_all, accumulate, tm_zero, zero_add, wrap_int_of_in_int hn]

/-- A date in January 2024 is what `mktime` calls normalised: in a zone at
most a day away from UTC it returns the struct as it is (with the offset of the
zone) and a time after the Epoch. -/
theorem mktime_11_jan_2024 (utc_offset : Int) (h0 : -86400 ≤ utc_offset)
    (h1 : utc_offset ≤ 86400) :
    mktime utc_offset ⟨0, 0, 0, 11, 0, 124, 0⟩ =
      (1704931200 - utc_offset, ⟨0, 0, 0, 11, 0, 124, utc_offset⟩) := by
  have hd : days_from_civil (1900 + 124 + 0 / 12) (0 % 12 + 1) 1 + (11 - 1) = 19733 := by
    decide
  have hg : gmtime 1704931200 = some ⟨0, 0, 0, 11, 0, 124, 0⟩ := by decide
  have he2 : 19733 * 86400 + 0 * 3600 + 0 * 60 + 0 - utc_offset = 1704931200 - utc_offset := by
    omega
  have hr : ¬ (1704931200 - utc_offset < -9223372036854775808 ∨
      9223372036854775807 < 1704931200 - utc_offset) := by omega
  have he : 1704931200 - utc_offset + utc_offset = 1704931200 := by omega
  simp only [mktime, hd, he2, hr, if_false, he, hg]

theorem render_11_jan_2024 (utc_offset : Int) (h0 : -86400 ≤ utc_offset)
    (h1 : utc_offset ≤ 86400) :
    render utc_offset ⟨operand_tag.OP_DATE, ⟨0, 0, 0, 11, 0, 124, 0⟩⟩ =
      exit_result.returned 0 "date: Thu Jan 11 00:00:00 2024\n\n" := by
  have hneg : ¬ (1704931200 - utc_offset < 0) := by omega
  have ha : asctime ⟨0, 0, 0, 11, 0, 124, utc_offset⟩ = asctime ⟨0, 0, 0, 11, 0, 124, 0⟩ := rfl
  have hb : asctime ⟨0, 0, 0, 11, 0, 124, 0⟩ = "Thu Jan 11 00:00:00 2024\n" := by decide
  simp only [render, mktime_11_jan_2024 utc_offset h0 h1, hneg, if_false, ha, hb]
  rfl

/-- C16: with the clock readable, for every token `YYYY-MM-DD` and every
`int` n such that D + n fits a C `int`, `main` with the arguments (date, "+",
"<n>days") reaches the output switch with a Date whose raw fields are year =
Y - 1900, month = M - 1, day of month = D + n and hour = minute = second = 0.
For "2024-01-01" "+" "10days" these are (124, 0, 11, 0, 0, 0), which `mktime`
leaves as they are: 2024-01-11 at 00:00:00. -/
theorem main_date_plus_days (clock utc_offset : Int) (h0 : 0 ≤ clock)
    (h1 : clock ≤ 67768036191676799) (program : List Char) (Y M D : Nat) (n : Int)
    (hY : Y ≤ 9999) (hM : 1 ≤ M ∧ M ≤ 12) (hD : 1 ≤ D ∧ D ≤ 31) (hn : in_int n)
    (hfit : in_int ((D : Int) + n)) :
    combine ⟨operand_tag.OP_DATE, ⟨0, 0, 0, (D : Int), (M : Int) - 1, (Y : Int) - 1900, 0⟩⟩
        operator.OP_ADD ⟨operand_tag.OP_DURATION, ⟨0, 0, 0, n, 0, 0, 0⟩⟩ =
      Except.ok
        ⟨operand_tag.OP_DATE, ⟨0, 0, 0, (D : Int) + n, (M : Int) - 1, (Y : Int) - 1900, 0⟩⟩ ∧
    main clock utc_offset
        [program, date_token Y M D, "+".toList, decimal n ++ "days".toList] =
      render utc_offset
        ⟨operand_tag.OP_DATE, ⟨0, 0, 0, (D : Int) + n, (M : Int) - 1, (Y : Int) - 1900, 0⟩⟩ ∧
    (-86400 ≤ utc_offset → utc_offset ≤ 86400 →
      mktime utc_offset ⟨0, 0, 0, 11, 0, 124, 0⟩ =
        (1704931200 - utc_offset, ⟨0, 0, 0, 11, 0, 124, utc_offset⟩) ∧
      render utc_offset ⟨operand_tag.OP_DATE, ⟨0, 0, 0, 11, 0, 124, 0⟩⟩ =
        exit_result.returned 0 "date: Thu Jan 11 00:00:00 2024\n\n") := by
  obtain ⟨today, ht⟩ := init_today_ok clock h0 h1
  have hl := parse_operand_date_token today operand_zero Y M D hY hM hD
  have hr := parse_operand_days today n hn
  have hop : parse_operator "+".toList none = (0, some operator.OP_ADD) := rfl
  have hadd : fits_add ⟨0, 0, 0, (D : Int), (M : Int) - 1, (Y : Int) - 1900, 0⟩
      ⟨0, 0, 0, n, 0, 0, 0⟩ := by
    unfold in_int INT_MIN INT_MAX at hfit
    simp only [fits_add, in_int, INT_MIN, INT_MAX]
    omega
  have hc : combine
      ⟨operand_tag.OP_DATE, ⟨0, 0, 0, (D : Int), (M : Int) - 1, (Y : Int) - 1900, 0⟩⟩
      operator.OP_ADD ⟨operand_tag.OP_DURATION, ⟨0, 0, 0, n, 0, 0, 0⟩⟩ =
      Except.ok
        ⟨operand_tag.OP_DATE,
          ⟨0, 0, 0, (D : Int) + n, (M : Int) - 1, (Y : Int) - 1900, 0⟩⟩ := by
    simp only [combine, add_fields_exact hadd, add_zero]
  refine ⟨hc, ?_, fun hu0 hu1 =>
    ⟨mktime_11_jan_2024 utc_offset hu0 hu1, render_11_jan_2024 utc_offset hu0 hu1⟩⟩
  simp only [main, ht, shift_args, List.length_cons, List.length_nil, main_tokens, hl, hr, hop,
    main_combine, hc]
  rfl

/-- Witness of C16: "2024-01-01" "+" "10days" in the zone of UTC. -/
theorem main_date_plus_days_witness :
    main 1700000000 0
        ["timecalc".toList, "2024-01-01".toList, "+".toList, "10days".toList] =
      render 0 ⟨operand_tag.OP_DATE, ⟨0, 0, 0, 11, 0, 124, 0⟩⟩ ∧
    mktime 0 ⟨0, 0, 0, 11, 0, 124, 0⟩ = (1704931200, ⟨0, 0, 0, 11, 0, 124, 0⟩) ∧
    render 0 ⟨operand_tag.OP_DATE, ⟨0, 0, 0, 11, 0, 124, 0⟩⟩ =
      exit_result.returned 0 "date: Thu Jan 11 00:00:00 2024\n\n" :=
  ⟨(main_date_plus_days 1700000000 0 (by decide) (by decide) "timecalc".toList 2024 1 1 10
      (by decide) (by decide) (by decide) (by decide) (by decide)).2.1,
   ((main_date_plus_days 1700000000 0 (by decide) (by decide) "timecalc".toList 2024 1 1 10
      (by decide) (by decide) (by decide) (by decide) (by decide)).2.2
      (by decide) (by decide)).1,
   ((main_date_plus_days 1700000000 0 (by decide) (by decide) "timecalc".toList 2024 1 1 10
      (by decide) (by decide) (by decide) (by decide) (by decide)).2.2
      (by decide) (by decide)).2⟩

/-! ## Two defects -/

/-- C18, the code at a failing input: "1960-01-01" + "0days" is a Date whose
time `mktime` represents (it returns -315619200, not the -1 of an overflow,
and leaves the struct as it is), yet the `ASSERT` of line 240 fires, because it
asks for a return value that is not negative: `main` traps with "time value
overflow" instead of printing the date and returning 0. -/
theorem render_traps_before_epoch :
    mktime 0 ⟨0, 0, 0, 1, 0, 60, 0⟩ = (-315619200, ⟨0, 0, 0, 1, 0, 60, 0⟩) ∧
    render 0 ⟨operand_tag.OP_DATE, ⟨0, 0, 0, 1, 0, 60, 0⟩⟩ =
      exit_result.trapped "assertion error: time value overflow\n" ∧
    main 1700000000 0
        ["timecalc".toList, "1960-01-01".toList, "+".toList, "0days".toList] =
      exit_result.trapped "assertion error: time value overflow\n" ∧
    main 1700000000 0
        ["timecalc".toList, "1970-01-01".toList, "+".toList, "0days".toList] =
      exit_result.returned 0 "date: Thu Jan  1 00:00:00 1970\n\n" := by
  decide

/-- C19, the code at a failing input: on "2024-01-01+02:00" the date scan
stops in front of "+02:00" and the time scan fails there; scanning `%z` from
that place would store the offset of 7200 seconds, but line 55 scans from the
beginning of the token, where `%z` fails on the digit, and the offset is lost.
With a time of day in between, the offset is read. -/
theorem offset_after_date_lost :
    (strptime "2024-01-01+02:00".toList fmt_date tm_zero).1 = some "+02:00".toList ∧
    (strptime "+02:00".toList fmt_time ⟨0, 0, 0, 1, 0, 124, 0⟩).1 = none ∧
    strptime "+02:00".toList fmt_zone ⟨0, 0, 0, 1, 0, 124, 0⟩ =
      (some [], ⟨0, 0, 0, 1, 0, 124, 7200⟩) ∧
    strptime "2024-01-01+02:00".toList fmt_zone ⟨0, 0, 0, 1, 0, 124, 0⟩ =
      (none, ⟨0, 0, 0, 1, 0, 124, 0⟩) ∧
    parse_date ⟨20, 13, 22, 14, 10, 123, 0⟩ "2024-01-01+02:00".toList operand_zero =
      (0, ⟨operand_tag.OP_DATE, ⟨0, 0, 0, 1, 0, 124, 0⟩⟩) ∧
    parse_date ⟨20, 13, 22, 14, 10, 123, 0⟩ "2024-01-01 00:00:00+02:00".toList operand_zero =
      (0, ⟨operand_tag.OP_DATE, ⟨0, 0, 0, 1, 0, 124, 7200⟩⟩) := by
  decide

/-! ## Tokens without a pair, as operands -/

theorem get_number_space (lo hi n : Nat) (ws : List Char) (hws : all_space ws) :
    get_number lo hi n ws = none := by
  have h : ws.dropWhile isspace = [] := List.dropWhile_eq_nil_iff.2 hws
  simp only [get_number, h]

/-- A token of white space only is no Date: `parse_date` returns -1 on it. -/
theorem parse_date_space (today : tm) (ws : List Char) (hws : all_space ws) (dst : operand) :
    parse_date today ws dst = (-1, dst) := by
  refine parse_date_neither today ws dst ?_ ?_ ?_
  · intro h
    have hT : isspace 'T' = true := hws 'T' (by rw [h]; decide)
    exact absurd hT (by decide)
  · simp only [fmt_date, strptime, get_number_space _ _ _ ws hws]
  · simp only [fmt_time, strptime, get_number_space _ _ _ ws hws]

theorem parse_operand_space (today : tm) (ws : List Char) (hws : all_space ws) :
    parse_operand today ws operand_zero =
      parse_result.returned 0 ⟨operand_tag.OP_DURATION, ⟨0, 0, 0, 0, 0, 0, 0⟩⟩ := by
  have h1 : ¬ ((-1 : Int) = 0) := by decide
  simp only [parse_operand, parse_date_space today ws hws, h1, if_false,
    parse_duration_space ws hws, if_true]
  rfl

/-- C8, amended: a token that is white space only, the empty token included,
is not refused: `parse_duration` returns 0 on it and sets the tag Duration,
the fields staying as they were; `parse_operand` yields the Duration with all
six fields zero for it, and `main` with two such tokens around "+" or "-"
prints that Duration and returns 0. A token that begins with an integer that no
unit keyword follows (a bare integer such as "10") makes `parse_duration`
return -1 with the destination unchanged. Whenever `parse_date` and
`parse_duration` both refuse a token, `parse_operand` returns -1, and `main`
reports "left operand is illformed" with that token as left operand, and
"right operand is illformed" with it as right operand after a left operand
and an operator that parse, and returns 1. -/
theorem parse_duration_no_pair (today : tm) :
    (∀ (ws : List Char) (dst : operand), all_space ws →
      parse_duration ws dst =
        parse_result.returned 0 { dst with tag := operand_tag.OP_DURATION }) ∧
    (∀ (n : Int) (rest : List Char) (dst : operand),
      in_int n → no_digit_ahead rest → no_unit rest →
      parse_duration (decimal n ++ rest) dst = parse_result.returned (-1) dst) ∧
    (∀ (src : List Char) (d : operand),
      (parse_date today src operand_zero).1 ≠ 0 →
      parse_duration src operand_zero = parse_result.returned (-1) d →
      parse_operand today src operand_zero = parse_result.returned (-1) d ∧
      (∀ (utc_offset : Int) (program : Option (List Char)) (op_src rhs_src : List Char),
        main_tokens today utc_offset program src op_src rhs_src =
          exit_result.returned 1
            ("error: left operand is illformed\n" ++
             "Try `" ++ program_name program ++ "` for usage information.\n")) ∧
      (∀ (utc_offset : Int) (program : Option (List Char)) (lhs_src op_src : List Char)
        (lhs : operand),
        parse_operand today lhs_src operand_zero = parse_result.returned 0 lhs →
        (parse_operator op_src none).1 = 0 →
        main_tokens today utc_offset program lhs_src op_src src =
          exit_result.returned 1
            ("error: right operand is illformed\n" ++
             "Try `" ++ program_name program ++ "` for usage information.\n"))) ∧
    (∀ ws : List Char, all_space ws →
      parse_operand today ws operand_zero =
        parse_result.returned 0 ⟨operand_tag.OP_DURATION, ⟨0, 0, 0, 0, 0, 0, 0⟩⟩) ∧
    (∀ (ws1 ws2 op_src : List Char) (utc_offset : Int) (program : Option (List Char)),
      all_space ws1 → all_space ws2 → (op_src = "+".toList ∨ op_src = "-".toList) →
      main_tokens today utc_offset program ws1 op_src ws2 =
        exit_result.returned 0
          "DURATION:\nyear: 0\nmont: 0\ndays: 0\nhour: 0\nmins: 0\nsecs: 0\n") := by
  refine ⟨fun ws dst h => parse_duration_space ws h dst,
    fun n rest dst hn hd hu => parse_duration_integer n hn rest hd hu dst, ?_,
    fun ws h => parse_operand_space today ws h, ?_⟩
  · intro src d hdate hdur
    have hop : parse_operand today src operand_zero = parse_result.returned (-1) d := by
      have h1 : ¬ ((-1 : Int) = 0) := by decide
      simp only [parse_operand, parse_date_fail today src operand_zero hdate, h1, if_false,
        hdur]
    refine ⟨hop, ?_, ?_⟩
    · intro utc_offset program op_src rhs_src
      simp only [main_tokens, hop, DIE_USAGE]
      rfl
    · intro utc_offset program lhs_src op_src lhs hl ho
      have h0 : ¬ ((0 : Int) < 0) := by decide
      have h1 : ¬ ((parse_operator op_src none).1 < 0) := by rw [ho]; decide
      simp only [main_tokens, hl, h0, if_false, h1, hop, DIE_USAGE]
      rfl
  · intro ws1 ws2 op_src utc_offset program h1 h2 hop
    have h0 : ¬ ((0 : Int) < 0) := by decide
    rcases hop with rfl | rfl
    · simp only [main_tokens, parse_operand_space today _ h1, parse_operand_space today _ h2,
        h0, if_false]
      rfl
    · simp only [main_tokens, parse_operand_space today _ h1, parse_operand_space today _ h2,
        h0, if_false]
      rfl

/-- Witness of C8, amended: the token of one blank, the bare integer "10" as
left and as right operand, and the run on two blank tokens. -/
theorem parse_duration_no_pair_witness :
    parse_duration " ".toList operand_zero =
      parse_result.returned 0 ⟨operand_tag.OP_DURATION, ⟨0, 0, 0, 0, 0, 0, 0⟩⟩ ∧
    parse_duration "10".toList operand_zero = parse_result.returned (-1) operand_zero ∧
    parse_operand ⟨20, 13, 22, 14, 10, 123, 0⟩ "10".toList operand_zero =
      parse_result.returned (-1) operand_zero ∧
    main_tokens ⟨20, 13, 22, 14, 10, 123, 0⟩ 0 (some "timecalc".toList) "10".toList
        "+".toList "1days".toList =
      exit_result.returned 1
        ("error: left operand is illformed\n" ++
         "Try `" ++ program_name (some "timecalc".toList) ++ "` for usage information.\n") ∧
    main_tokens ⟨20, 13, 22, 14, 10, 123, 0⟩ 0 (some "timecalc".toList) "1days".toList
        "+".toList "10".toList =
      exit_result.returned 1
        ("error: right operand is illformed\n" ++
         "Try `" ++ program_name (some "timecalc".toList) ++ "` for usage information.\n") ∧
    parse_operand ⟨20, 13, 22, 14, 10, 123, 0⟩ "  ".toList operand_zero =
      parse_result.returned 0 ⟨operand_tag.OP_DURATION, ⟨0, 0, 0, 0, 0, 0, 0⟩⟩ ∧
    main_tokens ⟨20, 13, 22, 14, 10, 123, 0⟩ 0 (some "timecalc".toList) " ".toList
        "-".toList "\t ".toList =
      exit_result.returned 0
        "DURATION:\nyear: 0\nmont: 0\ndays: 0\nhour: 0\nmins: 0\nsecs: 0\n" :=
  ⟨(parse_duration_no_pair ⟨20, 13, 22, 14, 10, 123, 0⟩).1 " ".toList operand_zero (by decide),
   (parse_duration_no_pair ⟨20, 13, 22, 14, 10, 123, 0⟩).2.1 10 [] operand_zero
     (by decide) (by decide) (by decide),
   ((parse_duration_no_pair ⟨20, 13, 22, 14, 10, 123, 0⟩).2.2.1 "10".toList operand_zero
     (by decide) (by decide)).1,
   ((parse_duration_no_pair ⟨20, 13, 22, 14, 10, 123, 0⟩).2.2.1 "10".toList operand_zero
     (by decide) (by decide)).2.1 0 (some "timecalc".toList) "+".toList "1days".toList,
   ((parse_duration_no_pair ⟨20, 13, 22, 14, 10, 123, 0⟩).2.2.1 "10".toList operand_zero
     (by decide) (by decide)).2.2 0 (some "timecalc".toList) "1days".toList "+".toList
     ⟨operand_tag.OP_DURATION, ⟨0, 0, 0, 1, 0, 0, 0⟩⟩ (by decide) (by decide),
   (parse_duration_no_pair ⟨20, 13, 22, 14, 10, 123, 0⟩).2.2.2.1 "  ".toList (by decide),
   (parse_duration_no_pair ⟨20, 13, 22, 14, 10, 123, 0⟩).2.2.2.2 " ".toList "\t ".toList
     "-".toList 0 (some "timecalc".toList) (by decide) (by decide) (by decide)⟩

/-! ## The number of arguments -/

/-- C17: with the clock readable, the exit status follows the number of extra
arguments: with none, `main` prints the usage text of lines 125-146 (the
sections USAGE and SYNTAX, the program name in each usage line) and returns 0;
with exactly one, and with exactly two, it returns 1 after a usage error,
whatever the arguments are (nothing is parsed before the count is checked). -/
theorem main_argument_count (clock utc_offset : Int) (h0 : 0 ≤ clock)
    (h1 : clock ≤ 67768036191676799) (program a b : List Char) :
    main clock utc_offset [program] =
      exit_result.returned 0
        ("USAGE\n" ++
         "   Add duration to date:\n" ++
         "       " ++ String.mk program ++ " DATE + DURATION\n" ++
         "\n" ++
         "   Substract duration from date:\n" ++
         "       " ++ String.mk program ++ " DATE - DURATION\n" ++
         "\n" ++
         "   Duration between dates:\n" ++
         "       " ++ String.mk program ++ " DATE - DATE\n" ++
         "\n" ++
         "   Add durations:\n" ++
         "       " ++ String.mk program ++ " DURATION + DURATION\n" ++
         "\n" ++
         "   Substract durations:\n" ++
         "       " ++ String.mk program ++ " DURATION - DURATION\n" ++
         "\n" ++
         "SYNTAX\n" ++
         "   DATE := [YYYY-MM-DD] [[hh:mm:ss] [(+|-)hh:mm]]\n" ++
         "         | TODAY\n" ++
         "\n" ++
         "   DURATION := [%years] [%months] [%weeks]\n" ++
         "               [%days] [%hours] [%mins] [%secs]\n") ∧
    main clock utc_offset [program, a] =
      exit_result.returned 1
        ("error: expected `+` or `-`\n" ++
         "Try `" ++ String.mk program ++ "` for usage information.\n") ∧
    main clock utc_offset [program, a, b] =
      exit_result.returned 1
        ("error: expected right operand\n" ++
         "Try `" ++ String.mk program ++ "` for usage information.\n") := by
  obtain ⟨today, ht⟩ := init_today_ok clock h0 h1
  refine ⟨?_, ?_, ?_⟩
  · simp only [main, ht, shift_args, List.length_nil, if_true]
    rfl
  · simp only [main, ht, shift_args, List.length_cons, List.length_nil]
    rfl
  · simp only [main, ht, shift_args, List.length_cons, List.length_nil]
    rfl

set_option maxRecDepth 100000 in
/-- Witness of C17: the clock at 1700000000, the program name "timecalc", and
arguments that are no operands at all. -/
theorem main_argument_count_witness :
    main 1700000000 0 ["timecalc".toList] =
      exit_result.returned 0
        "USAGE\n   Add duration to date:\n       timecalc DATE + DURATION\n\n   Substract duration from date:\n       timecalc DATE - DURATION\n\n   Duration between dates:\n       timecalc DATE - DATE\n\n   Add durations:\n       timecalc DURATION + DURATION\n\n   Substract durations:\n       timecalc DURATION - DURATION\n\nSYNTAX\n   DATE := [YYYY-MM-DD] [[hh:mm:ss] [(+|-)hh:mm]]\n         | TODAY\n\n   DURATION := [%years] [%months] [%weeks]\n               [%days] [%hours] [%mins] [%secs]\n" ∧
    main 1700000000 0 ["timecalc".toList, "?".toList] =
      exit_result.returned 1
        "error: expected `+` or `-`\nTry `timecalc` for usage information.\n" ∧
    main 1700000000 0 ["timecalc".toList, "?".toList, "!".toList] =
      exit_result.returned 1
        "error: expected right operand\nTry `timecalc` for usage information.\n" :=
  main_argument_count 1700000000 0 (by decide) (by decide) "timecalc".toList "?".toList
    "!".toList

end timecalc
